import Mathlib

/-!
# Verification of the Video2Video pipeline core

A shallow embedding, in Lean 4, of the core logic of the Video2Video
repository: the clip segmenter (`backend/services/clip_segmenter.py`), the
multi-provider video generation client
(`backend/services/video_generator.py`), the pipeline orchestrator
(`backend/tasks/video_processor.py`) and the generation-start API route
(`backend/api/routes.py`).

Durations, costs and progress percentages are embedded as exact rationals
(`ℚ`); Python floats are modelled exactly, so `0.8` in the source becomes
`4/5` and tolerance claims such as "within 1e-6" become exact statements.
Network calls, the file system and Redis are abstracted into explicit
environment records; a Python exception propagating out of a statement is
modelled by `Except String`, with the exception message as the error value.
-/

namespace Video2Video

/-! ## Clip segmenter (`backend/services/clip_segmenter.py`) -/

/-- The `pacing` literal of `ClipSegment`. -/
inductive Pacing
  | normal
  | slightly_faster
  | slightly_slower
deriving DecidableEq, Repr

/-- `ClipSegment` dataclass: one clip segment with timing and pacing info. -/
structure ClipSegment where
  clip_index : Nat
  start_time : ℚ
  end_time : ℚ
  duration : ℚ
  target_duration : ℚ
  pacing : Pacing
  pacing_note : String
deriving DecidableEq, Repr

/-- One entry of `ClipSegmenter.MODEL_LIMITS`. -/
structure ModelLimits where
  max_duration : ℚ
  min_duration : ℚ
  default_duration : ℚ
deriving DecidableEq, Repr

/-- `ClipSegmenter.MODEL_LIMITS`: model-specific duration limits. -/
def MODEL_LIMITS : List (String × ModelLimits) :=
  [("defapi-sora-2", ⟨15, 5, 10⟩),
   ("defapi-veo-3.1", ⟨8, 3, 8⟩),
   ("veo-3.1-fast", ⟨8, 3, 8⟩),
   ("veo-3.1-quality", ⟨8, 3, 8⟩),
   ("sora-2", ⟨8, 3, 8⟩)]

/-- `ClipSegmenter.PACING_THRESHOLD`: max seconds compensated by faster pacing. -/
def PACING_THRESHOLD : ℚ := 3

/-- `ClipSegmenter.get_model_limits`: model limits with an 8s/3s/8s fallback
for unknown model names. -/
def get_model_limits (model : String) : ModelLimits :=
  (MODEL_LIMITS.lookup model).getD ⟨8, 3, 8⟩

/-- The pacing note attached to clip 0 in the `remainder <= PACING_THRESHOLD`
branch of `calculate_segments`.  The Python source interpolates
`int((compression_ratio - 1) * 100)` (truncation toward zero; the ratio is
greater than 1 whenever the note is built, so truncation is `Int.floor`)
and the two durations into an f-string. -/
def pacingNoteFor (video_duration : ℚ) (num_clips : Nat) (max_dur : ℚ) : String :=
  let compression_ratio : ℚ := video_duration / (num_clips * max_dur)
  "PACING: Speak " ++ toString ⌊(compression_ratio - 1) * 100⌋ ++
    "% faster to fit " ++ toString video_duration ++ "s content into " ++
    toString ((num_clips : ℚ) * max_dur) ++
    "s. Keep natural rhythm but slightly quicker pace."

/-- The clip-count / pacing decision made at the top of
`ClipSegmenter.calculate_segments` (lines 69-89 of the source). -/
structure ClipPlan where
  num_clips : Nat
  pacing : Pacing
  pacing_note : String
deriving Repr

/-- `min_clips = max(1, int(video_duration / max_dur))` of the source.
Python `int` truncates toward zero; for positive quotients this is the
floor, and for non-positive quotients both truncation and floor are
clamped to 1 by the outer `max`. -/
def minClipsFor (video_duration max_dur : ℚ) : Nat :=
  max 1 (⌊video_duration / max_dur⌋.toNat)

/-- The decision rule of `calculate_segments` (lines 69-89): either
`min_clips` normal clips, `min_clips` slightly-faster clips with a pacing
note, or `min_clips + 1` normal clips. -/
def clipPlanFor (video_duration max_dur : ℚ) : ClipPlan :=
  let min_clips := minClipsFor video_duration max_dur
  let remainder := video_duration - min_clips * max_dur
  if remainder ≤ 0 then
    ⟨min_clips, .normal, ""⟩
  else if remainder ≤ PACING_THRESHOLD then
    ⟨min_clips, .slightly_faster, pacingNoteFor video_duration min_clips max_dur⟩
  else
    ⟨min_clips + 1, .normal, ""⟩

/-- One segment of `ClipSegmenter._uniform_segments`: clip `i` of `num_clips`
evenly split clips. -/
def mkUniformSeg (clip_duration max_dur : ℚ) (pacing : Pacing) (note : String)
    (i : Nat) : ClipSegment :=
  { clip_index := i
    start_time := i * clip_duration
    end_time := (i + 1) * clip_duration
    duration := (i + 1) * clip_duration - i * clip_duration
    target_duration := min clip_duration max_dur
    pacing := pacing
    pacing_note := if i = 0 then note else "" }

/-- `ClipSegmenter._uniform_segments`: evenly distributed clips. -/
def uniform_segments (video_duration : ℚ) (num_clips : Nat) (max_dur : ℚ)
    (pacing : Pacing) (pacing_note : String) : List ClipSegment :=
  let clip_duration := video_duration / num_clips
  (List.range num_clips).map (mkUniformSeg clip_duration max_dur pacing pacing_note)

/-- The `ClipSegment(...)` constructor call shared by `_align_to_scenes`:
`duration = end - start`, `target_duration = min(end - start, max_dur)`. -/
def mkSceneSeg (idx : Nat) (s e max_dur : ℚ) (pacing : Pacing) (note : String) :
    ClipSegment :=
  ⟨idx, s, e, e - s, min (e - s) max_dur, pacing, note⟩

/-- The segment created by one append of the greedy loop of
`_align_to_scenes`: clip end is the boundary unless this is the final clip,
which absorbs everything to the video end; the pacing note goes to clip 0
only. -/
def greedySeg (video_duration max_dur : ℚ) (num_clips : Nat) (pacing : Pacing)
    (note : String) (clips_created : Nat) (current_start b : ℚ) : ClipSegment :=
  mkSceneSeg clips_created current_start
    (if clips_created < num_clips - 1 then b else video_duration) max_dur pacing
    (if clips_created = 0 then note else "")

/-- The greedy scene-accumulation loop of `_align_to_scenes`
(`for i, boundary in enumerate(boundaries[1:], 1): ...`, lines 163-185).
The state is the current start time and the segments created so far
(`clips_created` in the source is the length of that list, and the loop
breaks once `num_clips` segments exist, i.e. once
`num_clips ≤ segments.length + 1` at an append).  Python `0.8` is embedded
as the exact rational `4/5`. -/
def greedyScenes (video_duration target_clip_duration max_dur : ℚ)
    (num_clips : Nat) (pacing : Pacing) (note : String) :
    List ℚ → ℚ → List ClipSegment → List ClipSegment
  | [], _, segments => segments
  | b :: rest, current_start, segments =>
    if target_clip_duration * (4/5) ≤ b - current_start ∨
        segments.length = num_clips - 1 then
      if num_clips ≤ segments.length + 1 then
        segments ++ [greedySeg video_duration max_dur num_clips pacing note
          segments.length current_start b]
      else
        greedyScenes video_duration target_clip_duration max_dur num_clips
          pacing note rest
          (if segments.length < num_clips - 1 then b else video_duration)
          (segments ++ [greedySeg video_duration max_dur num_clips pacing note
            segments.length current_start b])
    else
      greedyScenes video_duration target_clip_duration max_dur num_clips
        pacing note rest current_start segments

/-- One iteration of the fill-up loop of `_align_to_scenes` (lines 188-211):
the last segment is replaced by its two halves, split at its midpoint.  The
second half gets `clip_index = len(segments)` computed before the append,
i.e. the length of the list before this iteration. -/
def bisectLast (max_dur : ℚ) (pacing : Pacing) (segments : List ClipSegment) :
    List ClipSegment :=
  match segments.getLast? with
  | none => segments
  | some last =>
    let mid := (last.start_time + last.end_time) / 2
    segments.dropLast ++
      [mkSceneSeg last.clip_index last.start_time mid max_dur pacing last.pacing_note,
       mkSceneSeg segments.length mid last.end_time max_dur pacing ""]

theorem bisectLast_length (max_dur : ℚ) (pacing : Pacing)
    (segments : List ClipSegment) (h : segments ≠ []) :
    (bisectLast max_dur pacing segments).length = segments.length + 1 := by
  rcases hl : segments.getLast? with _ | last
  · exact absurd (List.getLast?_eq_none_iff.mp hl) h
  · have hlen : segments.length ≠ 0 := by simpa using h
    simp only [bisectLast, hl, List.length_append, List.length_dropLast,
      List.length_cons, List.length_nil]
    omega

/-- The `while len(segments) < num_clips:` fill-up loop of `_align_to_scenes`.
On an empty list the Python loop would fail on `segments[-1]`; the guard
`segments ≠ []` makes the Lean function return the empty list there instead
(the loop is never entered with an empty list: the greedy pass always
creates at least one segment, see `greedyScenes_ne_nil`). -/
def fillToCount (num_clips : Nat) (max_dur : ℚ) (pacing : Pacing)
    (segments : List ClipSegment) : List ClipSegment :=
  if h : segments.length < num_clips ∧ segments ≠ [] then
    fillToCount num_clips max_dur pacing (bisectLast max_dur pacing segments)
  else segments
termination_by num_clips - segments.length
decreasing_by
  have := bisectLast_length max_dur pacing segments h.2
  omega

/-- `boundaries = [0.0] + sorted(scene_boundaries) + [video_duration]`
(line 150 of `_align_to_scenes`). -/
def sortedBoundaries (video_duration : ℚ) (scene_boundaries : List ℚ) : List ℚ :=
  [0] ++ scene_boundaries.mergeSort (fun a b => decide (a ≤ b)) ++ [video_duration]

/-- `ClipSegmenter._align_to_scenes`: scene-aligned segmentation with a
fallback to even splitting when there are fewer inter-boundary intervals
than clips (`len(boundaries) - 1 < num_clips`); otherwise the greedy pass
over `boundaries[1:]` followed by the bisecting fill-up loop. -/
def align_to_scenes (video_duration : ℚ) (num_clips : Nat) (max_dur : ℚ)
    (scene_boundaries : List ℚ) (pacing : Pacing) (pacing_note : String) :
    List ClipSegment :=
  if (sortedBoundaries video_duration scene_boundaries).length - 1 < num_clips then
    uniform_segments video_duration num_clips max_dur pacing pacing_note
  else
    fillToCount num_clips max_dur pacing
      (greedyScenes video_duration (video_duration / num_clips) max_dur
        num_clips pacing pacing_note
        ((sortedBoundaries video_duration scene_boundaries).drop 1) 0 [])

/-- `ClipSegmenter.calculate_segments`: the public segmentation entry point.
`scene_boundaries = none` models the `None` default; a supplied empty list
is rejected by the truthiness check `if scene_boundaries and
len(scene_boundaries) > 0:` exactly as in the source. -/
def calculate_segments (video_duration : ℚ) (model : String)
    (scene_boundaries : Option (List ℚ)) : List ClipSegment :=
  let limits := get_model_limits model
  let max_dur := limits.max_duration
  let plan := clipPlanFor video_duration max_dur
  match scene_boundaries with
  | some bs =>
    if bs ≠ [] then
      align_to_scenes video_duration plan.num_clips max_dur bs plan.pacing
        plan.pacing_note
    else
      uniform_segments video_duration plan.num_clips max_dur plan.pacing
        plan.pacing_note
  | none =>
    uniform_segments video_duration plan.num_clips max_dur plan.pacing
      plan.pacing_note

/-- The number of clips `calculate_segments` decides on for a duration and a
model (the `num_clips` local of the source). -/
def numClipsFor (video_duration : ℚ) (model : String) : Nat :=
  (clipPlanFor video_duration (get_model_limits model).max_duration).num_clips

/-! ### Segmenter lemmas -/

/-- All pacing notes after the first segment are empty, and the first
segment carries `note`. -/
def NoteOnlyFirst (note : String) (l : List ClipSegment) : Prop :=
  (∀ s ∈ l.tail, s.pacing_note = "") ∧ ∀ s, l.head? = some s → s.pacing_note = note

theorem uniform_segments_length (vd : ℚ) (n : Nat) (max_dur : ℚ) (p : Pacing)
    (note : String) : (uniform_segments vd n max_dur p note).length = n := by
  simp [uniform_segments]

theorem uniform_segments_sum (vd : ℚ) (n : Nat) (max_dur : ℚ) (p : Pacing)
    (note : String) (hn : n ≠ 0) :
    ((uniform_segments vd n max_dur p note).map
      (fun s => s.end_time - s.start_time)).sum = vd := by
  have hn' : (n : ℚ) ≠ 0 := Nat.cast_ne_zero.mpr hn
  have h1 : ((uniform_segments vd n max_dur p note).map
      (fun s => s.end_time - s.start_time)) = List.replicate n (vd / n) := by
    rw [List.eq_replicate_iff]
    refine ⟨by simp [uniform_segments], ?_⟩
    intro b hb
    simp only [uniform_segments, List.map_map, List.mem_map, List.mem_range,
      Function.comp] at hb
    obtain ⟨i, _, hi⟩ := hb
    rw [← hi]
    simp only [mkUniformSeg]
    ring
  rw [h1, List.sum_replicate, nsmul_eq_mul]
  field_simp

theorem uniform_segments_wf (vd : ℚ) (n : Nat) (max_dur : ℚ) (p : Pacing)
    (note : String) :
    ∀ s ∈ uniform_segments vd n max_dur p note,
      s.pacing = p ∧ s.target_duration ≤ max_dur := by
  intro s hs
  simp only [uniform_segments, List.mem_map, List.mem_range] at hs
  obtain ⟨i, _, rfl⟩ := hs
  exact ⟨rfl, min_le_right _ _⟩

theorem uniform_segments_notes (vd : ℚ) (n : Nat) (max_dur : ℚ) (p : Pacing)
    (note : String) :
    NoteOnlyFirst note (uniform_segments vd n max_dur p note) := by
  constructor
  · intro s hs
    match n with
    | 0 => simp [uniform_segments] at hs
    | Nat.succ m =>
      simp only [uniform_segments, List.range_succ_eq_map, List.map_cons,
        List.tail_cons, List.map_map, List.mem_map, List.mem_range,
        Function.comp] at hs
      obtain ⟨i, _, rfl⟩ := hs
      simp [mkUniformSeg]
  · intro s hs
    match n with
    | 0 => simp [uniform_segments] at hs
    | Nat.succ m =>
      simp only [uniform_segments, List.range_succ_eq_map, List.map_cons,
        List.head?_cons, Option.some_inj] at hs
      rw [← hs]
      simp [mkUniformSeg]

theorem noteOnlyFirst_append (note : String) (acc : List ClipSegment)
    (x : ClipSegment) (h : NoteOnlyFirst note acc)
    (hx : x.pacing_note = if acc.length = 0 then note else "") :
    NoteOnlyFirst note (acc ++ [x]) := by
  cases acc with
  | nil =>
    refine ⟨by simp, ?_⟩
    intro s hs
    simp only [List.nil_append, List.head?_cons, Option.some_inj] at hs
    rw [← hs]
    simpa using hx
  | cons a as =>
    obtain ⟨ht, hh⟩ := h
    refine ⟨?_, ?_⟩
    · intro s hs
      simp only [List.cons_append, List.tail_cons, List.mem_append,
        List.mem_singleton] at hs
      rcases hs with hs | rfl
      · exact ht s (by simpa using hs)
      · simpa using hx
    · intro s hs
      simp only [List.cons_append, List.head?_cons] at hs
      exact hh s (by simpa using hs)

theorem wf_append (p : Pacing) (max_dur : ℚ) (acc : List ClipSegment)
    (x : ClipSegment)
    (h : ∀ s ∈ acc, s.pacing = p ∧ s.target_duration ≤ max_dur)
    (hx : x.pacing = p ∧ x.target_duration ≤ max_dur) :
    ∀ s ∈ acc ++ [x], s.pacing = p ∧ s.target_duration ≤ max_dur := by
  intro s hs
  rcases List.mem_append.mp hs with hs | hs
  · exact h s hs
  · rw [List.mem_singleton.mp hs]; exact hx

theorem greedySeg_wf (vd max_dur : ℚ) (n : Nat) (p : Pacing) (note : String)
    (k : Nat) (cs b : ℚ) :
    (greedySeg vd max_dur n p note k cs b).pacing = p ∧
      (greedySeg vd max_dur n p note k cs b).target_duration ≤ max_dur :=
  ⟨rfl, min_le_right _ _⟩

theorem greedyScenes_length_mono (vd t max_dur : ℚ) (n : Nat) (p : Pacing)
    (note : String) :
    ∀ (bs : List ℚ) (cur : ℚ) (acc : List ClipSegment),
      acc.length ≤ (greedyScenes vd t max_dur n p note bs cur acc).length := by
  intro bs
  induction bs with
  | nil => intro cur acc; simp [greedyScenes]
  | cons b rest ih =>
    intro cur acc
    rw [greedyScenes]
    split
    · split
      · simp
      · exact le_trans (by simp) (ih _ _)
    · exact ih _ _

theorem greedyScenes_ne_nil_of_acc (vd t max_dur : ℚ) (n : Nat) (p : Pacing)
    (note : String) (bs : List ℚ) (cur : ℚ) (acc : List ClipSegment)
    (h : acc ≠ []) : greedyScenes vd t max_dur n p note bs cur acc ≠ [] := by
  intro hnil
  have := greedyScenes_length_mono vd t max_dur n p note bs cur acc
  rw [hnil] at this
  simp at this
  exact h this

theorem greedyScenes_length_le (vd t max_dur : ℚ) (n : Nat) (p : Pacing)
    (note : String) :
    ∀ (bs : List ℚ) (cur : ℚ) (acc : List ClipSegment), acc.length < n →
      (greedyScenes vd t max_dur n p note bs cur acc).length ≤ n := by
  intro bs
  induction bs with
  | nil => intro cur acc hlt; simpa [greedyScenes] using hlt.le
  | cons b rest ih =>
    intro cur acc hlt
    rw [greedyScenes]
    split
    · split
      · simp only [List.length_append, List.length_singleton]
        omega
      · next hbreak =>
        exact ih _ _ (by simp only [List.length_append, List.length_singleton]; omega)
    · exact ih _ _ hlt

theorem greedyScenes_ne_nil (vd t max_dur : ℚ) (n : Nat) (p : Pacing)
    (note : String) (hn : 1 ≤ n) (hvd : 0 < vd) (ht : t = vd / n) :
    ∀ (bs : List ℚ) (cur : ℚ) (acc : List ClipSegment),
      (acc = [] → cur = 0) → bs.getLast? = some vd →
      greedyScenes vd t max_dur n p note bs cur acc ≠ [] := by
  have hcond : t * (4/5) ≤ vd - 0 := by
    have h1 : (0:ℚ) ≤ t := by
      rw [ht]
      exact div_nonneg hvd.le (by positivity)
    have h2 : t ≤ vd := by
      rw [ht]
      exact div_le_self hvd.le (by exact_mod_cast hn)
    have h3 : t * (4/5) ≤ t * 1 := by
      apply mul_le_mul_of_nonneg_left _ h1
      norm_num
    simpa using h3.trans (by simpa using h2)
  intro bs
  induction bs with
  | nil => intro cur acc _ hlast; simp at hlast
  | cons b rest ih =>
    intro cur acc hacc hlast
    rcases List.eq_nil_or_concat rest with hr | ⟨_, _, _⟩
    all_goals rcases Decidable.em (acc = []) with haccnil | haccne
    · -- rest = [], acc = []: b is the last boundary, so b = vd
      subst hr
      have hb : b = vd := by simpa using hlast
      subst hb
      rw [greedyScenes]
      rw [haccnil, hacc haccnil]
      simp only [List.length_nil, List.nil_append]
      rw [if_pos (Or.inl hcond)]
      split
      · simp
      · exact greedyScenes_ne_nil_of_acc _ _ _ _ _ _ _ _ _ (by simp)
    · subst hr
      exact greedyScenes_ne_nil_of_acc _ _ _ _ _ _ _ _ _ haccne
    · -- rest ≠ [] and acc = []
      have hrne : rest ≠ [] := by rename_i w l hw; rw [hw]; simp
      have hlast2 : rest.getLast? = some vd := by
        cases rest with
        | nil => exact absurd rfl hrne
        | cons c cs => rwa [List.getLast?_cons_cons] at hlast
      rw [greedyScenes]
      split
      · split
        · simp [haccnil]
        · apply greedyScenes_ne_nil_of_acc
          simp [haccnil]
      · exact ih _ _ hacc hlast2
    · exact greedyScenes_ne_nil_of_acc _ _ _ _ _ _ _ _ _ haccne

theorem greedyScenes_inv (vd t max_dur : ℚ) (n : Nat) (p : Pacing)
    (note : String) :
    ∀ (bs : List ℚ) (cur : ℚ) (acc : List ClipSegment),
      (∀ s ∈ acc, s.pacing = p ∧ s.target_duration ≤ max_dur) →
      NoteOnlyFirst note acc →
      (∀ s ∈ greedyScenes vd t max_dur n p note bs cur acc,
          s.pacing = p ∧ s.target_duration ≤ max_dur) ∧
        NoteOnlyFirst note (greedyScenes vd t max_dur n p note bs cur acc) := by
  intro bs
  induction bs with
  | nil => intro cur acc hwf hnote; exact ⟨by simpa [greedyScenes] using hwf,
      by simpa [greedyScenes] using hnote⟩
  | cons b rest ih =>
    intro cur acc hwf hnote
    have hwf2 := wf_append p max_dur acc
      (greedySeg vd max_dur n p note acc.length cur b) hwf (greedySeg_wf _ _ _ _ _ _ _ _)
    have hnote2 := noteOnlyFirst_append note acc
      (greedySeg vd max_dur n p note acc.length cur b) hnote rfl
    rw [greedyScenes]
    split
    · split
      · exact ⟨hwf2, hnote2⟩
      · exact ih _ _ hwf2 hnote2
    · exact ih _ _ hwf hnote

theorem bisectLast_ne_nil (max_dur : ℚ) (p : Pacing) (segs : List ClipSegment)
    (h : segs ≠ []) : bisectLast max_dur p segs ≠ [] := by
  intro hnil
  have := bisectLast_length max_dur p segs h
  rw [hnil] at this
  simp at this

theorem bisectLast_wf (max_dur : ℚ) (p : Pacing) (segs : List ClipSegment)
    (h : ∀ s ∈ segs, s.pacing = p ∧ s.target_duration ≤ max_dur) :
    ∀ s ∈ bisectLast max_dur p segs, s.pacing = p ∧ s.target_duration ≤ max_dur := by
  induction segs using List.reverseRecOn with
  | nil => simpa [bisectLast] using h
  | append_singleton init last _ =>
    intro s hs
    simp only [bisectLast, List.getLast?_concat, List.dropLast_concat] at hs
    rcases List.mem_append.mp hs with hs | hs
    · exact h s (List.mem_append_left _ hs)
    · simp only [List.mem_cons, List.not_mem_nil, or_false] at hs
      rcases hs with rfl | rfl
      · exact ⟨rfl, min_le_right _ _⟩
      · exact ⟨rfl, min_le_right _ _⟩

theorem bisectLast_notes (note : String) (max_dur : ℚ) (p : Pacing)
    (segs : List ClipSegment) (h : NoteOnlyFirst note segs) :
    NoteOnlyFirst note (bisectLast max_dur p segs) := by
  induction segs using List.reverseRecOn with
  | nil => simpa [bisectLast] using h
  | append_singleton init last _ =>
    obtain ⟨htail, hhead⟩ := h
    simp only [bisectLast, List.getLast?_concat, List.dropLast_concat]
    cases init with
    | nil =>
      refine ⟨?_, ?_⟩
      · intro s hs
        simp only [List.nil_append, List.tail_cons, List.mem_singleton] at hs
        rw [hs]
        rfl
      · intro s hs
        simp only [List.nil_append, List.head?_cons, Option.some_inj] at hs
        rw [← hs]
        have hl : last.pacing_note = note := hhead last (by simp)
        simpa [mkSceneSeg] using hl
    | cons d ds =>
      have hlast_tail : last.pacing_note = "" := by
        apply htail
        simp
      refine ⟨?_, ?_⟩
      · intro s hs
        simp only [List.cons_append, List.tail_cons, List.mem_append,
          List.mem_cons, List.not_mem_nil, or_false] at hs
        rcases hs with hs | rfl | rfl
        · exact htail s (by simp [hs])
        · simpa [mkSceneSeg] using hlast_tail
        · rfl
      · intro s hs
        simp only [List.cons_append, List.head?_cons] at hs
        exact hhead s (by simpa using hs)

theorem fillToCount_length (n : Nat) (max_dur : ℚ) (p : Pacing) :
    ∀ segs : List ClipSegment, segs ≠ [] → segs.length ≤ n →
      (fillToCount n max_dur p segs).length = n := by
  intro segs
  induction segs using fillToCount.induct n max_dur p with
  | case1 x hx ih =>
    intro _ _
    rw [fillToCount, dif_pos hx]
    exact ih (bisectLast_ne_nil max_dur p x hx.2)
      (by rw [bisectLast_length max_dur p x hx.2]; omega)
  | case2 x hx =>
    intro hne hle
    rw [fillToCount, dif_neg hx]
    have hnl : ¬ x.length < n := fun hlt => hx ⟨hlt, hne⟩
    omega

theorem fillToCount_wf (n : Nat) (max_dur : ℚ) (p : Pacing) :
    ∀ segs : List ClipSegment,
      (∀ s ∈ segs, s.pacing = p ∧ s.target_duration ≤ max_dur) →
      ∀ s ∈ fillToCount n max_dur p segs,
        s.pacing = p ∧ s.target_duration ≤ max_dur := by
  intro segs
  induction segs using fillToCount.induct n max_dur p with
  | case1 x hx ih =>
    intro h
    rw [fillToCount, dif_pos hx]
    exact ih (bisectLast_wf max_dur p x h)
  | case2 x hx =>
    intro h
    rwa [fillToCount, dif_neg hx]

theorem fillToCount_notes (note : String) (n : Nat) (max_dur : ℚ) (p : Pacing) :
    ∀ segs : List ClipSegment, NoteOnlyFirst note segs →
      NoteOnlyFirst note (fillToCount n max_dur p segs) := by
  intro segs
  induction segs using fillToCount.induct n max_dur p with
  | case1 x hx ih =>
    intro h
    rw [fillToCount, dif_pos hx]
    exact ih (bisectLast_notes note max_dur p x h)
  | case2 x hx =>
    intro h
    rwa [fillToCount, dif_neg hx]

/-! ### Facts about `align_to_scenes` and `calculate_segments` -/

theorem sortedBoundaries_drop_one (vd : ℚ) (sb : List ℚ) :
    (sortedBoundaries vd sb).drop 1 =
      sb.mergeSort (fun a b => decide (a ≤ b)) ++ [vd] := by
  simp [sortedBoundaries]

theorem sortedBoundaries_drop_one_getLast (vd : ℚ) (sb : List ℚ) :
    ((sortedBoundaries vd sb).drop 1).getLast? = some vd := by
  rw [sortedBoundaries_drop_one, List.getLast?_concat]

theorem align_to_scenes_length (vd : ℚ) (n : Nat) (max_dur : ℚ) (sb : List ℚ)
    (p : Pacing) (note : String) (hn : 1 ≤ n) (hvd : 0 < vd) :
    (align_to_scenes vd n max_dur sb p note).length = n := by
  rw [align_to_scenes]
  split
  · exact uniform_segments_length vd n max_dur p note
  · apply fillToCount_length
    · exact greedyScenes_ne_nil vd (vd / n) max_dur n p note hn hvd rfl _ 0 []
        (fun _ => rfl) (sortedBoundaries_drop_one_getLast vd sb)
    · exact greedyScenes_length_le vd (vd / n) max_dur n p note _ 0 []
        (by simpa using hn)

theorem align_to_scenes_wf (vd : ℚ) (n : Nat) (max_dur : ℚ) (sb : List ℚ)
    (p : Pacing) (note : String) :
    ∀ s ∈ align_to_scenes vd n max_dur sb p note,
      s.pacing = p ∧ s.target_duration ≤ max_dur := by
  rw [align_to_scenes]
  split
  · exact uniform_segments_wf vd n max_dur p note
  · exact fillToCount_wf n max_dur p _
      (greedyScenes_inv vd (vd / n) max_dur n p note _ 0 [] (by simp)
        ⟨by simp, by simp⟩).1

theorem align_to_scenes_notes (vd : ℚ) (n : Nat) (max_dur : ℚ) (sb : List ℚ)
    (p : Pacing) (note : String) :
    NoteOnlyFirst note (align_to_scenes vd n max_dur sb p note) := by
  rw [align_to_scenes]
  split
  · exact uniform_segments_notes vd n max_dur p note
  · exact fillToCount_notes note n max_dur p _
      (greedyScenes_inv vd (vd / n) max_dur n p note _ 0 [] (by simp)
        ⟨by simp, by simp⟩).2

theorem one_le_numClipsFor (vd : ℚ) (model : String) :
    1 ≤ numClipsFor vd model := by
  simp only [numClipsFor, clipPlanFor, minClipsFor]
  split_ifs <;> simp

theorem calculate_segments_length (vd : ℚ) (model : String)
    (sb : Option (List ℚ)) (hvd : 0 < vd) :
    (calculate_segments vd model sb).length = numClipsFor vd model := by
  have hn := one_le_numClipsFor vd model
  rw [numClipsFor] at hn ⊢
  cases sb with
  | none => exact uniform_segments_length vd _ _ _ _
  | some bs =>
    simp only [calculate_segments]
    split
    · exact align_to_scenes_length vd _ _ bs _ _ hn hvd
    · exact uniform_segments_length vd _ _ _ _

theorem calculate_segments_wf (vd : ℚ) (model : String)
    (sb : Option (List ℚ)) :
    ∀ s ∈ calculate_segments vd model sb,
      s.pacing = (clipPlanFor vd (get_model_limits model).max_duration).pacing ∧
      s.target_duration ≤ (get_model_limits model).max_duration := by
  cases sb with
  | none => exact uniform_segments_wf vd _ _ _ _
  | some bs =>
    simp only [calculate_segments]
    split
    · exact align_to_scenes_wf vd _ _ bs _ _
    · exact uniform_segments_wf vd _ _ _ _

theorem calculate_segments_notes (vd : ℚ) (model : String)
    (sb : Option (List ℚ)) :
    NoteOnlyFirst (clipPlanFor vd (get_model_limits model).max_duration).pacing_note
      (calculate_segments vd model sb) := by
  cases sb with
  | none => exact uniform_segments_notes vd _ _ _ _
  | some bs =>
    simp only [calculate_segments]
    split
    · exact align_to_scenes_notes vd _ _ bs _ _
    · exact uniform_segments_notes vd _ _ _ _

theorem pacingNoteFor_ne_empty (vd : ℚ) (n : Nat) (m : ℚ) :
    pacingNoteFor vd n m ≠ "" := by
  intro h
  have hd := congrArg String.length h
  simp only [pacingNoteFor, String.length_append] at hd
  have h14 : ("PACING: Speak ").length = 14 := by decide
  have h0 : ("").length = 0 := by decide
  rw [h14, h0] at hd
  omega

theorem noteOnlyFirst_all_empty (l : List ClipSegment)
    (h : NoteOnlyFirst "" l) : ∀ s ∈ l, s.pacing_note = "" := by
  intro s hs
  cases l with
  | nil => simp at hs
  | cons a t =>
    rcases List.mem_cons.mp hs with rfl | hs
    · exact h.2 s rfl
    · exact h.1 s hs

/-! ## Claims about the clip segmenter -/

/-- Claim C2, as amended: every clip's `target_duration` stays within the
model's `max_duration` whether or not scene boundaries are supplied, and the
clip durations `end_time - start_time` sum to `video_duration` (well within
the 1e-6 tolerance, in fact exactly) when no scene boundaries are supplied.
With scene boundaries the greedy alignment pass can leave the tail of the
video uncovered, so the sum claim fails there (see the counterexample). -/
def C2Holds (vd : ℚ) (model : String) (sb : Option (List ℚ)) : Prop :=
  (∀ s ∈ calculate_segments vd model sb,
    s.target_duration ≤ (get_model_limits model).max_duration) ∧
  (sb = none →
    |((calculate_segments vd model sb).map
        (fun s => s.end_time - s.start_time)).sum - vd| ≤ 1 / 1000000)

/-- C2 (amended): for every positive duration and every model, targets stay
within the model limit, and without scene boundaries the clip durations sum
exactly to the video duration. -/
theorem segment_sum_and_target_bounds (vd : ℚ) (model : String)
    (sb : Option (List ℚ)) (hvd : 0 < vd) : C2Holds vd model sb := by
  constructor
  · intro s hs
    exact (calculate_segments_wf vd model sb s hs).2
  · rintro rfl
    have hne : (clipPlanFor vd (get_model_limits model).max_duration).num_clips ≠ 0 :=
      Nat.one_le_iff_ne_zero.mp (one_le_numClipsFor vd model)
    have h1 : calculate_segments vd model none =
        uniform_segments vd
          (clipPlanFor vd (get_model_limits model).max_duration).num_clips
          (get_model_limits model).max_duration
          (clipPlanFor vd (get_model_limits model).max_duration).pacing
          (clipPlanFor vd (get_model_limits model).max_duration).pacing_note := rfl
    rw [h1, uniform_segments_sum _ _ _ _ _ hne]
    simp

/-- Witness for C2 (amended) at a concrete input. -/
theorem segment_sum_and_target_bounds_witness :
    (0:ℚ) < 16 ∧ C2Holds 16 "sora-2" none :=
  ⟨by norm_num, segment_sum_and_target_bounds 16 "sora-2" none (by norm_num)⟩

/-- Claim C3: the clip-count and pacing decision rule of
`calculate_segments`, phrased over the `min_clips`/`remainder` quantities of
the source. -/
def C3Holds (vd : ℚ) (model : String) (sb : Option (List ℚ)) : Prop :=
  let max_dur := (get_model_limits model).max_duration
  let min_clips := minClipsFor vd max_dur
  let remainder := vd - min_clips * max_dur
  let segs := calculate_segments vd model sb
  (remainder ≤ 0 → segs.length = min_clips ∧
    ∀ s ∈ segs, s.pacing = Pacing.normal ∧ s.pacing_note = "") ∧
  (0 < remainder → remainder ≤ PACING_THRESHOLD → segs.length = min_clips ∧
    (∀ s ∈ segs, s.pacing = Pacing.slightly_faster) ∧
    (∃ s0, segs.head? = some s0 ∧
      s0.pacing_note = pacingNoteFor vd min_clips max_dur ∧ s0.pacing_note ≠ "") ∧
    ∀ s ∈ segs.tail, s.pacing_note = "") ∧
  (PACING_THRESHOLD < remainder → segs.length = min_clips + 1 ∧
    ∀ s ∈ segs, s.pacing = Pacing.normal ∧ s.pacing_note = "")

/-- C3 (confirmed): with `min_clips = max(1, floor(vd / max_dur))` and
`remainder = vd - min_clips * max_dur`, `calculate_segments` produces
`min_clips` normal clips with no pacing note when `remainder ≤ 0`;
`min_clips` slightly-faster clips with the compression-ratio pacing note on
clip 0 only when `0 < remainder ≤ 3`; and `min_clips + 1` normal clips when
`remainder > 3`. -/
theorem clip_count_pacing_rule (vd : ℚ) (model : String)
    (sb : Option (List ℚ)) (hvd : 0 < vd) : C3Holds vd model sb := by
  simp only [C3Holds]
  have hlen := calculate_segments_length vd model sb hvd
  have hwf := calculate_segments_wf vd model sb
  have hnotes := calculate_segments_notes vd model sb
  have hmc : 1 ≤ minClipsFor vd (get_model_limits model).max_duration :=
    le_max_left 1 _
  refine ⟨?_, ?_, ?_⟩
  · intro hr
    have hplan : clipPlanFor vd (get_model_limits model).max_duration =
        ⟨minClipsFor vd (get_model_limits model).max_duration, Pacing.normal, ""⟩ := by
      simp only [clipPlanFor]
      rw [if_pos hr]
    rw [numClipsFor, hplan] at hlen
    rw [hplan] at hwf hnotes
    refine ⟨hlen, ?_⟩
    intro s hs
    exact ⟨(hwf s hs).1, noteOnlyFirst_all_empty _ hnotes s hs⟩
  · intro hr0 hr3
    have hplan : clipPlanFor vd (get_model_limits model).max_duration =
        ⟨minClipsFor vd (get_model_limits model).max_duration,
          Pacing.slightly_faster,
          pacingNoteFor vd (minClipsFor vd (get_model_limits model).max_duration)
            (get_model_limits model).max_duration⟩ := by
      simp only [clipPlanFor]
      rw [if_neg (not_le.mpr hr0), if_pos hr3]
    rw [numClipsFor, hplan] at hlen
    rw [hplan] at hwf hnotes
    refine ⟨hlen, fun s hs => (hwf s hs).1, ?_, hnotes.1⟩
    rcases hsegs : calculate_segments vd model sb with _ | ⟨s0, rest⟩
    · rw [hsegs] at hlen
      simp at hlen
      omega
    · refine ⟨s0, by simp, ?_, ?_⟩
      · exact hnotes.2 s0 (by rw [hsegs]; rfl)
      · rw [hnotes.2 s0 (by rw [hsegs]; rfl)]
        exact pacingNoteFor_ne_empty _ _ _
  · intro hr
    have h3 : (0:ℚ) < PACING_THRESHOLD := by
      rw [show PACING_THRESHOLD = 3 from rfl]
      norm_num
    have hplan : clipPlanFor vd (get_model_limits model).max_duration =
        ⟨minClipsFor vd (get_model_limits model).max_duration + 1,
          Pacing.normal, ""⟩ := by
      simp only [clipPlanFor]
      rw [if_neg (by linarith : ¬ vd -
          (minClipsFor vd (get_model_limits model).max_duration : ℚ) *
          (get_model_limits model).max_duration ≤ 0),
        if_neg (not_le.mpr hr)]
    rw [numClipsFor, hplan] at hlen
    rw [hplan] at hwf hnotes
    refine ⟨hlen, ?_⟩
    intro s hs
    exact ⟨(hwf s hs).1, noteOnlyFirst_all_empty _ hnotes s hs⟩

/-- Witness for C3 at a concrete input. -/
theorem clip_count_pacing_rule_witness :
    (0:ℚ) < 17 ∧ C3Holds 17 "sora-2" none :=
  ⟨by norm_num, clip_count_pacing_rule 17 "sora-2" none (by norm_num)⟩

/-- C8 (amended): the fall-back-to-even-split happens when the number of
scene boundary entries **plus one** is smaller than the computed clip count
(the source compares `len(boundaries) - 1 < num_clips` where `boundaries`
has the video start and end prepended/appended), and in that case the
result equals the segmentation without scene boundaries. -/
theorem scene_fallback_even_split (vd : ℚ) (model : String) (sb : List ℚ)
    (hne : sb ≠ []) (hlt : sb.length + 1 < numClipsFor vd model) :
    calculate_segments vd model (some sb) = calculate_segments vd model none := by
  have hcond : (sortedBoundaries vd sb).length - 1 <
      (clipPlanFor vd (get_model_limits model).max_duration).num_clips := by
    simp only [sortedBoundaries, List.length_append, List.length_mergeSort,
      List.length_cons, List.length_nil, List.length_singleton]
    rw [numClipsFor] at hlt
    omega
  simp only [calculate_segments, if_pos hne]
  rw [align_to_scenes, if_pos hcond]

/-! ### Concrete evaluations of the segmenter -/

theorem get_model_limits_sora2 : get_model_limits "sora-2" = ⟨8, 3, 8⟩ := rfl

theorem minClipsFor_16_8 : minClipsFor 16 8 = 2 := by
  have hf : ⌊(16:ℚ)/8⌋ = 2 := by norm_num
  rw [minClipsFor, hf]
  rfl

theorem clipPlanFor_16_8 : clipPlanFor 16 8 = ⟨2, Pacing.normal, ""⟩ := by
  simp only [clipPlanFor, minClipsFor_16_8]
  norm_num

theorem numClipsFor_16_sora2 : numClipsFor 16 "sora-2" = 2 := by
  rw [numClipsFor, get_model_limits_sora2]
  rw [show (ModelLimits.mk 8 3 8).max_duration = 8 from rfl, clipPlanFor_16_8]

/-- Counterexample to C8 as stated: for `video_duration = 16` and model
`sora-2` the computed clip count is 2 and the single scene boundary `[10]`
has fewer entries than that, yet `calculate_segments` does not fall back to
the even split (the source only falls back when
`len(boundaries) - 1 < num_clips`, i.e. when `len(scene_boundaries) + 1 <
num_clips`): it aligns to the scene at 10s instead of splitting at 8s. -/
theorem scene_fallback_counterexample :
    [(10:ℚ)] ≠ [] ∧ [(10:ℚ)].length < numClipsFor 16 "sora-2" ∧
    calculate_segments 16 "sora-2" (some [10]) ≠
      calculate_segments 16 "sora-2" none := by
  have hsort : List.mergeSort [(10:ℚ)] (fun a b => decide (a ≤ b)) = [10] := by
    simp [List.mergeSort]
  refine ⟨by simp, by rw [numClipsFor_16_sora2]; simp, ?_⟩
  have hgreedy : greedyScenes 16 (16 / ((2:ℕ):ℚ)) 8 2 Pacing.normal "" [10, 16] 0 [] =
      [mkSceneSeg 0 0 10 8 Pacing.normal "",
       mkSceneSeg 1 10 16 8 Pacing.normal ""] := by
    rw [greedyScenes,
      if_pos (Or.inl (by push_cast; norm_num :
        (16:ℚ) / ((2:ℕ):ℚ) * (4/5) ≤ 10 - 0)),
      if_neg (by simp)]
    rw [greedyScenes]
    rw [if_pos (Or.inr (by simp))]
    rw [if_pos (by simp)]
    simp [greedySeg, mkSceneSeg]
  have hA : calculate_segments 16 "sora-2" (some [10]) =
      [mkSceneSeg 0 0 10 8 Pacing.normal "",
       mkSceneSeg 1 10 16 8 Pacing.normal ""] := by
    have h0 : calculate_segments 16 "sora-2" (some [10]) =
        align_to_scenes 16 2 8 [10] Pacing.normal "" := by
      simp [calculate_segments, get_model_limits_sora2, clipPlanFor_16_8]
    rw [h0, align_to_scenes, if_neg (by simp [sortedBoundaries, hsort])]
    rw [sortedBoundaries_drop_one, hsort]
    rw [show ([(10:ℚ)] ++ [16]) = [10, 16] from rfl]
    rw [hgreedy]
    rw [fillToCount, dif_neg (by simp)]
  have hB : calculate_segments 16 "sora-2" none =
      uniform_segments 16 2 8 Pacing.normal "" := by
    simp only [calculate_segments, get_model_limits_sora2, clipPlanFor_16_8]
  rw [hA, hB]
  intro heq
  have h1 := congrArg
    (fun l => (l.getD 1 (mkSceneSeg 0 0 0 0 Pacing.normal "")).start_time) heq
  simp only [uniform_segments, mkUniformSeg, mkSceneSeg,
    show List.range 2 = [0, 1] from rfl, List.map_cons, List.map_nil,
    List.getD_cons_succ, List.getD_cons_zero] at h1
  norm_num at h1

theorem minClipsFor_32_8 : minClipsFor 32 8 = 4 := by
  have hf : ⌊(32:ℚ)/8⌋ = 4 := by norm_num
  rw [minClipsFor, hf]
  rfl

theorem numClipsFor_32_sora2 : numClipsFor 32 "sora-2" = 4 := by
  rw [numClipsFor, get_model_limits_sora2]
  rw [show (ModelLimits.mk 8 3 8).max_duration = 8 from rfl]
  simp only [clipPlanFor, minClipsFor_32_8]
  norm_num

/-- Witness for C8 (amended) at a concrete input: one scene boundary, four
clips, `1 + 1 < 4`, so the fallback applies and the result equals the
uniform split. -/
theorem scene_fallback_even_split_witness :
    [(1:ℚ)] ≠ [] ∧ [(1:ℚ)].length + 1 < numClipsFor 32 "sora-2" ∧
    calculate_segments 32 "sora-2" (some [1]) =
      calculate_segments 32 "sora-2" none := by
  have h2 : [(1:ℚ)].length + 1 < numClipsFor 32 "sora-2" := by
    rw [numClipsFor_32_sora2]
    simp
  exact ⟨by simp, h2, scene_fallback_even_split 32 "sora-2" [1] (by simp) h2⟩

theorem minClipsFor_24_8 : minClipsFor 24 8 = 3 := by
  have hf : ⌊(24:ℚ)/8⌋ = 3 := by norm_num
  rw [minClipsFor, hf]
  rfl

theorem clipPlanFor_24_8 : clipPlanFor 24 8 = ⟨3, Pacing.normal, ""⟩ := by
  simp only [clipPlanFor, minClipsFor_24_8]
  norm_num

/-- Counterexample to C2 as stated: for `video_duration = 24` (model
`sora-2`, so three 8-second clips) with scene boundaries `[21.6, 22.8]`,
the greedy alignment creates one clip `[0, 21.6]`, never reaches the video
end (the remaining boundaries are too close), and the bisecting fill-up
only ever splits existing clips, so the produced durations sum to `21.6`,
not `24` — off by `2.4`, far beyond the 1e-6 tolerance. -/
theorem segment_sum_counterexample :
    (0:ℚ) < 24 ∧
    ¬ (|((calculate_segments 24 "sora-2" (some [108/5, 114/5])).map
        (fun s => s.end_time - s.start_time)).sum - 24| ≤ 1 / 1000000) := by
  refine ⟨by norm_num, ?_⟩
  have hsort : List.mergeSort [(108:ℚ)/5, 114/5] (fun a b => decide (a ≤ b)) =
      [108/5, 114/5] := by
    apply List.mergeSort_eq_self
    simp only [List.sorted_cons, List.mem_singleton, List.Sorted,
      List.pairwise_cons, List.Pairwise.nil, and_true, forall_eq,
      List.not_mem_nil, false_implies, implies_true]
    norm_num
  have hseg1 : greedySeg 24 8 3 Pacing.normal "" 0 0 ((108:ℚ)/5) =
      mkSceneSeg 0 0 (108/5) 8 Pacing.normal "" := by
    simp [greedySeg]
  have hgreedy : greedyScenes 24 (24 / ((3:ℕ):ℚ)) 8 3 Pacing.normal ""
      [108/5, 114/5, 24] 0 [] =
      [mkSceneSeg 0 0 ((108:ℚ)/5) 8 Pacing.normal ""] := by
    rw [greedyScenes,
      if_pos (Or.inl (by push_cast; norm_num :
        (24:ℚ)/((3:ℕ):ℚ)*(4/5) ≤ 108/5 - 0)),
      if_neg (by simp)]
    simp only [List.nil_append, List.length_nil]
    rw [hseg1, if_pos (by norm_num : (0:ℕ) < 3 - 1)]
    rw [greedyScenes, if_neg (by push_cast; norm_num)]
    rw [greedyScenes, if_neg (by push_cast; norm_num)]
    rw [greedyScenes]
  have hA : calculate_segments 24 "sora-2" (some [108/5, 114/5]) =
      fillToCount 3 8 Pacing.normal
        [mkSceneSeg 0 0 ((108:ℚ)/5) 8 Pacing.normal ""] := by
    have h0 : calculate_segments 24 "sora-2" (some [108/5, 114/5]) =
        align_to_scenes 24 3 8 [108/5, 114/5] Pacing.normal "" := by
      simp [calculate_segments, get_model_limits_sora2, clipPlanFor_24_8]
    rw [h0, align_to_scenes, if_neg (by simp [sortedBoundaries, hsort])]
    rw [sortedBoundaries_drop_one, hsort]
    rw [show ([(108:ℚ)/5, 114/5] ++ [24]) = [108/5, 114/5, 24] from rfl]
    rw [hgreedy]
  rw [hA]
  simp [fillToCount, bisectLast, mkSceneSeg]
  rw [show |(108:ℚ)/5 - 24| = 12/5 from by
    rw [abs_of_nonpos (by norm_num)]
    norm_num]
  norm_num

/-! ## Video generator (`backend/services/video_generator.py`)

Network requests, the file system and the provider responses are abstracted
into a `GenEnv` record.  A Python exception raised inside the `try` body of
`VideoGenerator.generate` (connection errors, `raise_for_status`, file
reads) is modelled as `Except.error msg`; `generate` itself is total and
catches every such error exactly as the source's `except Exception`. -/

/-- The `Provider` enum. -/
inductive Provider
  | kie_ai
  | defapi
deriving DecidableEq, Repr

/-- `provider.value`. -/
def Provider.value : Provider → String
  | .kie_ai => "kie.ai"
  | .defapi => "defapi.org"

/-- The `Model` enum. -/
inductive Model
  | veo_3_1_fast
  | veo_3_1_quality
  | sora_2
  | defapi_veo_3_1
  | defapi_sora_2
deriving DecidableEq, Repr

/-- `model.value`. -/
def Model.value : Model → String
  | .veo_3_1_fast => "veo-3.1-fast"
  | .veo_3_1_quality => "veo-3.1-quality"
  | .sora_2 => "sora-2"
  | .defapi_veo_3_1 => "defapi-veo-3.1"
  | .defapi_sora_2 => "defapi-sora-2"

/-- The `GenerationResult` dataclass (all optional fields default to
`None` / `""` / `0.0` as in the source). -/
structure GenerationResult where
  success : Bool
  video_url : Option String := none
  video_path : Option String := none
  error : Option String := none
  provider : String := ""
  model : String := ""
  cost_estimate : ℚ := 0
deriving DecidableEq, Repr

/-- `VideoGenerator.COST_MAP`: static cost estimates per (provider, model). -/
def COST_MAP : List ((Provider × Model) × ℚ) :=
  [((.kie_ai, .veo_3_1_fast), 2/5),
   ((.kie_ai, .veo_3_1_quality), 2),
   ((.kie_ai, .sora_2), 3/20),
   ((.defapi, .defapi_veo_3_1), 1/2),
   ((.defapi, .defapi_sora_2), 1/10)]

/-- `COST_MAP.get((provider, model), 0.0)`. -/
def costOf (p : Provider) (m : Model) : ℚ :=
  (COST_MAP.lookup (p, m)).getD 0

/-- Python truthiness of an optional string (`None` and `""` are falsy). -/
def strTruthy : Option String → Bool
  | none => false
  | some s => s ≠ ""

/-- Python `a or b` on two optional strings: `a` when truthy, else `b`. -/
def pyOrStr (a b : Option String) : Option String :=
  if strTruthy a then a else b

/-- `path and Path(path).exists()`: returns the path when it is a truthy
string naming an existing file, `none` otherwise. -/
def truthyExisting (pathExists : String → Bool) : Option String → Option String
  | none => none
  | some p => if p = "" then none else if pathExists p then some p else none

/-- MIME-type detection by extension used for `input_reference` /
`image_urls` data URIs. -/
def mimeFor (path : String) : String :=
  if path.endsWith ".png" then "image/png" else "image/jpeg"

/-- One JSON response of the Kie.ai task-status endpoint, as read by
`_poll_kie_ai`: `status`, `video_url` and `output.video_url`. -/
structure KiePollResp where
  status : Option String := none
  video_url : Option String := none
  output_video_url : Option String := none
deriving Repr

/-- The JSON submit response of the Kie.ai generation endpoints:
`task_id = result.get("task_id") or result.get("id")`. -/
structure KieSubmitResp where
  task_id : Option String := none
  id : Option String := none
deriving Repr

/-- The JSON submit response of the defapi.org endpoints:
`{"code": ..., "message": ..., "data": {"task_id": ...}}`. -/
structure DefapiSubmitResp where
  code : Option Int := some 0
  message : Option String := none
  task_id : Option String := none
deriving Repr

/-- The `result` payload of a completed defapi.org task: either a direct
URL string or a JSON object (modelled as an association list of string
entries, looked up with `get`). -/
inductive DefResultVal
  | rstr (s : String)
  | rdict (entries : List (String × String))
deriving DecidableEq, Repr

/-- Python truthiness of the `result` value (empty string and empty dict
are falsy). -/
def DefResultVal.truthy : DefResultVal → Bool
  | .rstr s => s ≠ ""
  | .rdict entries => entries ≠ []

/-- One JSON response of the defapi.org `/api/task/query` endpoint. -/
structure DefapiPollResp where
  code : Option Int := some 0
  status : Option String := none
  result : Option DefResultVal := none
deriving Repr

/-- The environment of one `VideoGenerator.generate` call: file-system
state and the provider's behaviour at each network interaction.  An
`Except.error msg` at a step models a Python exception raised there
(connection error, non-2xx `raise_for_status`, JSON decode failure, file
read failure); polling responses are indexed by attempt number. -/
structure GenEnv where
  pathExists : String → Bool
  readFileB64 : String → Except String String
  kie_submit : Except String KieSubmitResp
  kie_poll : Nat → Except String KiePollResp
  i2v_submit : Except String KieSubmitResp
  i2v_poll : Nat → Except String KiePollResp
  defapi_submit : Except String DefapiSubmitResp
  defapi_poll : Nat → Except String DefapiPollResp
  download : Except String String

/-- `_poll_kie_ai`'s default `max_attempts`. -/
def KIE_MAX_ATTEMPTS : Nat := 60

/-- `_poll_defapi`'s default `max_attempts`. -/
def DEFAPI_MAX_ATTEMPTS : Nat := 120

/-- `VideoGenerator._poll_kie_ai`: polls up to `fuel` times starting at
attempt index `attempt`; `"completed"` yields
`result.get("video_url") or result.get("output", {}).get("video_url")`,
`"failed"` yields `None`, anything else retries; exhausting the attempts
yields `None`.  A poll request raising propagates the exception. -/
def poll_kie_ai (responses : Nat → Except String KiePollResp) :
    Nat → Nat → Except String (Option String)
  | 0, _ => .ok none
  | fuel + 1, attempt => do
    let r ← responses attempt
    if r.status = some "completed" then
      pure (pyOrStr r.video_url r.output_video_url)
    else if r.status = some "failed" then
      pure none
    else
      poll_kie_ai responses fuel (attempt + 1)

/-- `VideoGenerator._poll_defapi`: non-zero `code` retries; a
`completed`/`success` status yields the URL extracted from `result` (a
direct string, or `get("video") or get("video_url") or get("url")` of a
dict, `None` when `result` is falsy); `failed`/`error` yields `None`; any
other status retries; exhausting the attempts yields `None`. -/
def poll_defapi (responses : Nat → Except String DefapiPollResp) :
    Nat → Nat → Except String (Option String)
  | 0, _ => .ok none
  | fuel + 1, attempt => do
    let r ← responses attempt
    if r.code ≠ some 0 then
      poll_defapi responses fuel (attempt + 1)
    else if r.status = some "completed" ∨ r.status = some "success" then
      match r.result with
      | some v =>
        if v.truthy then
          match v with
          | .rstr s => pure (some s)
          | .rdict entries =>
            pure (pyOrStr (pyOrStr (entries.lookup "video")
              (entries.lookup "video_url")) (entries.lookup "url"))
        else pure none
      | none => pure none
    else if r.status = some "failed" ∨ r.status = some "error" then
      pure none
    else
      poll_defapi responses fuel (attempt + 1)

/-- The `payload["image"]` field built by `_generate_kie_ai` (jpeg data
URI; priority `start_frame` over `product_image`); reading a file may
raise. -/
def kieImageField (env : GenEnv) (start_frame_path product_image_path : Option String) :
    Except String (Option String) :=
  match truthyExisting env.pathExists start_frame_path with
  | some p => do
    let b64 ← env.readFileB64 p
    pure (some ("data:image/jpeg;base64," ++ b64))
  | none =>
    match truthyExisting env.pathExists product_image_path with
    | some p => do
      let b64 ← env.readFileB64 p
      pure (some ("data:image/jpeg;base64," ++ b64))
    | none => pure none

/-- The `payload["input_reference"]` field built by the defapi Sora 2
branch of `_generate_defapi` (MIME type detected from the extension;
priority `start_frame` over `product_image`). -/
def defapiSoraInputReference (env : GenEnv)
    (start_frame_path product_image_path : Option String) :
    Except String (Option String) :=
  match truthyExisting env.pathExists start_frame_path with
  | some p => do
    let b64 ← env.readFileB64 p
    pure (some ("data:" ++ mimeFor p ++ ";base64," ++ b64))
  | none =>
    match truthyExisting env.pathExists product_image_path with
    | some p => do
      let b64 ← env.readFileB64 p
      pure (some ("data:" ++ mimeFor p ++ ";base64," ++ b64))
    | none => pure none

/-- The `payload["image"]` field built by the defapi Veo 3.1 branch of
`_generate_defapi` (always a jpeg data URI; priority `start_frame` over
`product_image`). -/
def defapiVeoImageField (env : GenEnv)
    (start_frame_path product_image_path : Option String) :
    Except String (Option String) :=
  match truthyExisting env.pathExists start_frame_path with
  | some p => do
    let b64 ← env.readFileB64 p
    pure (some ("data:image/jpeg;base64," ++ b64))
  | none =>
    match truthyExisting env.pathExists product_image_path with
    | some p => do
      let b64 ← env.readFileB64 p
      pure (some ("data:image/jpeg;base64," ++ b64))
    | none => pure none

/-- The `model_map` of `_generate_kie_ai`. -/
def model_map : Model → Option String
  | .veo_3_1_fast => some "veo-3.1-generate-video/fast"
  | .veo_3_1_quality => some "veo-3.1-generate-video/quality"
  | .sora_2 => some "sora-2-generate-video"
  | _ => none

/-- `VideoGenerator._generate_kie_ai`: submit to Kie.ai, poll, download.
A falsy polled URL (timeout, provider-reported failure, or completion
without a URL) yields the `"Generation timed out"` failure result. -/
def generate_kie_ai (env : GenEnv) (prompt : String) (model : Model)
    (product_image_path start_frame_path : Option String) (duration : ℚ) :
    Except String GenerationResult :=
  match model_map model with
  | none =>
    pure { success := false,
           error := some ("Model " ++ model.value ++ " not supported by Kie.ai") }
  | some _kie_model => do
    let _payload_duration : ℚ := min duration 8
    let _image ← kieImageField env start_frame_path product_image_path
    let submit ← env.kie_submit
    let _task_id := pyOrStr submit.task_id submit.id
    let video_url ← poll_kie_ai env.kie_poll KIE_MAX_ATTEMPTS 0
    if strTruthy video_url then do
      let video_path ← env.download
      pure { success := true, video_url := video_url,
             video_path := some video_path, provider := "kie.ai",
             model := model.value, cost_estimate := costOf .kie_ai model }
    else
      pure { success := false, error := some "Generation timed out",
             provider := "kie.ai", model := model.value }

/-- `VideoGenerator._generate_kie_ai_i2v`: the Sora 2 image-to-video
endpoint used for clip chaining; always reports provider `kie.ai`, model
`sora-2-i2v` and cost `0.15`. -/
def generate_kie_ai_i2v (env : GenEnv) (prompt : String)
    (start_frame_path : String) (duration : ℚ) :
    Except String GenerationResult := do
  let b64 ← env.readFileB64 start_frame_path
  let _image_urls := ["data:" ++ mimeFor start_frame_path ++ ";base64," ++ b64]
  let submit ← env.i2v_submit
  let _task_id := pyOrStr submit.task_id submit.id
  let video_url ← poll_kie_ai env.i2v_poll KIE_MAX_ATTEMPTS 0
  if strTruthy video_url then do
    let video_path ← env.download
    pure { success := true, video_url := video_url,
           video_path := some video_path, provider := "kie.ai",
           model := "sora-2-i2v", cost_estimate := 3/20 }
  else
    pure { success := false, error := some "Generation timed out",
           provider := "kie.ai", model := "sora-2-i2v" }

/-- `VideoGenerator._generate_defapi`: build the Sora 2 or Veo 3.1
payload, submit, check `code` and `task_id`, poll, download. -/
def generate_defapi (env : GenEnv) (prompt : String) (model : Model)
    (product_image_path start_frame_path : Option String) (duration : ℚ) :
    Except String GenerationResult := do
  let _input_reference ←
    if model = .defapi_sora_2 then
      defapiSoraInputReference env start_frame_path product_image_path
    else
      defapiVeoImageField env start_frame_path product_image_path
  let cost : ℚ := if model = .defapi_sora_2 then 1/10 else 1/2
  let submit ← env.defapi_submit
  if submit.code ≠ some 0 then
    pure { success := false, error := some (submit.message.getD "API error"),
           provider := "defapi.org", model := model.value }
  else if ¬ strTruthy submit.task_id then
    pure { success := false, error := some "No task_id in response",
           provider := "defapi.org", model := model.value }
  else do
    let video_url ← poll_defapi env.defapi_poll DEFAPI_MAX_ATTEMPTS 0
    if strTruthy video_url then do
      let video_path ← env.download
      pure { success := true, video_url := video_url,
             video_path := some video_path, provider := "defapi.org",
             model := model.value, cost_estimate := cost }
    else
      pure { success := false, error := some "Generation timed out",
             provider := "defapi.org", model := model.value }

/-- The arguments of one `VideoGenerator.generate` call. -/
structure GenArgs where
  prompt : String := ""
  provider : Provider := .kie_ai
  model : Model := .veo_3_1_fast
  product_image_path : Option String := none
  start_frame_path : Option String := none
  duration : ℚ := 8
  session_id : String := ""
  variant_index : Nat := 0

/-- `VideoGenerator.generate`: routes to the Kie.ai I2V endpoint whenever
a truthy, existing `start_frame_path` is given (regardless of provider and
model), otherwise dispatches on the provider; any exception raised inside
is caught and turned into a failure result carrying the exception message
and the requested provider/model values. -/
def generate (env : GenEnv) (a : GenArgs) : GenerationResult :=
  let attempt : Except String GenerationResult :=
    match truthyExisting env.pathExists a.start_frame_path with
    | some p => generate_kie_ai_i2v env a.prompt p a.duration
    | none =>
      match a.provider with
      | .kie_ai => generate_kie_ai env a.prompt a.model a.product_image_path
          a.start_frame_path a.duration
      | .defapi => generate_defapi env a.prompt a.model a.product_image_path
          a.start_frame_path a.duration
  match attempt with
  | .ok r => r
  | .error e =>
    { success := false, error := some e,
      provider := a.provider.value, model := a.model.value }

/-! ### Generator lemmas -/

theorem generate_kie_ai_ok_shape (env : GenEnv) (prompt : String)
    (model : Model) (pip sfp : Option String) (dur : ℚ)
    (r : GenerationResult)
    (h : generate_kie_ai env prompt model pip sfp dur = .ok r) :
    r.success = false → r.video_path = none ∧ r.error ≠ none := by
  simp only [generate_kie_ai, bind, Except.bind, pure, Except.pure] at h
  repeat' split at h
  all_goals cases h <;> simp

theorem generate_kie_ai_i2v_ok_shape (env : GenEnv) (prompt : String)
    (sfp : String) (dur : ℚ) (r : GenerationResult)
    (h : generate_kie_ai_i2v env prompt sfp dur = .ok r) :
    r.success = false → r.video_path = none ∧ r.error ≠ none := by
  simp only [generate_kie_ai_i2v, bind, Except.bind, pure, Except.pure] at h
  repeat' split at h
  all_goals cases h <;> simp

theorem generate_defapi_ok_shape (env : GenEnv) (prompt : String)
    (model : Model) (pip sfp : Option String) (dur : ℚ)
    (r : GenerationResult)
    (h : generate_defapi env prompt model pip sfp dur = .ok r) :
    r.success = false → r.video_path = none ∧ r.error ≠ none := by
  simp only [generate_defapi, bind, Except.bind, pure, Except.pure] at h
  repeat' split at h
  all_goals cases h <;> simp

/-- The failed Kie.ai poll response used throughout: the provider reports
terminal status `"failed"`. -/
def kieFailedResp : KiePollResp := { status := some "failed" }

/-- The failed defapi.org poll response: zero code, status `"failed"`. -/
def defapiFailedResp : DefapiPollResp := { code := some 0, status := some "failed" }

theorem poll_kie_ai_failed (responses : Nat → Except String KiePollResp)
    (h : ∀ k, responses k = .ok kieFailedResp) :
    ∀ fuel att, poll_kie_ai responses fuel att = .ok none := by
  intro fuel att
  cases fuel with
  | zero => rfl
  | succ n =>
    rw [poll_kie_ai]
    rw [h att]
    simp [kieFailedResp, bind, Except.bind, pure, Except.pure]

theorem poll_defapi_failed (responses : Nat → Except String DefapiPollResp)
    (h : ∀ k, responses k = .ok defapiFailedResp) :
    ∀ fuel att, poll_defapi responses fuel att = .ok none := by
  intro fuel att
  cases fuel with
  | zero => rfl
  | succ n =>
    rw [poll_defapi]
    rw [h att]
    simp [defapiFailedResp, bind, Except.bind, pure, Except.pure]

theorem generate_kie_ai_not_success_of_failed (env : GenEnv) (prompt : String)
    (model : Model) (pip sfp : Option String) (dur : ℚ)
    (hk : ∀ k, env.kie_poll k = .ok kieFailedResp) (r : GenerationResult)
    (h : generate_kie_ai env prompt model pip sfp dur = .ok r) :
    r.success = false := by
  simp only [generate_kie_ai] at h
  rw [poll_kie_ai_failed env.kie_poll hk KIE_MAX_ATTEMPTS 0] at h
  simp only [bind, Except.bind, pure, Except.pure, strTruthy] at h
  repeat' split at h
  all_goals cases h <;> first | rfl | simp_all

theorem generate_kie_ai_i2v_not_success_of_failed (env : GenEnv)
    (prompt : String) (sfp : String) (dur : ℚ)
    (hi : ∀ k, env.i2v_poll k = .ok kieFailedResp) (r : GenerationResult)
    (h : generate_kie_ai_i2v env prompt sfp dur = .ok r) :
    r.success = false := by
  simp only [generate_kie_ai_i2v] at h
  rw [poll_kie_ai_failed env.i2v_poll hi KIE_MAX_ATTEMPTS 0] at h
  simp only [bind, Except.bind, pure, Except.pure, strTruthy] at h
  repeat' split at h
  all_goals cases h <;> first | rfl | simp_all

theorem generate_defapi_not_success_of_failed (env : GenEnv) (prompt : String)
    (model : Model) (pip sfp : Option String) (dur : ℚ)
    (hd : ∀ k, env.defapi_poll k = .ok defapiFailedResp) (r : GenerationResult)
    (h : generate_defapi env prompt model pip sfp dur = .ok r) :
    r.success = false := by
  simp only [generate_defapi] at h
  rw [poll_defapi_failed env.defapi_poll hd DEFAPI_MAX_ATTEMPTS 0] at h
  simp only [bind, Except.bind, pure, Except.pure, strTruthy] at h
  repeat' split at h
  all_goals cases h <;> first | rfl | simp_all

/-! ## Claims about the generator -/

/-- Claim C1: `generate` is a total function into `GenerationResult` (the
embedding returns a value for every environment, including those where any
network step raises: the source's `except Exception` catch-all), every
non-success result carries an error message and no video path, and in
particular an environment whose provider reports status `failed` on every
poll yields `success = false` with no video path. -/
def C1Holds (env : GenEnv) (a : GenArgs) : Prop :=
  ((generate env a).success = false →
    (generate env a).video_path = none ∧ (generate env a).error ≠ none) ∧
  ((∀ k, env.kie_poll k = .ok kieFailedResp) →
   (∀ k, env.i2v_poll k = .ok kieFailedResp) →
   (∀ k, env.defapi_poll k = .ok defapiFailedResp) →
   (generate env a).success = false ∧ (generate env a).video_path = none ∧
     (generate env a).error ≠ none)

/-- C1 (confirmed): submission errors, polling timeouts, provider-reported
failures and download errors all collapse to a returned
`GenerationResult` with `success = false`, an error message and no video
path; no exception escapes `generate`. -/
theorem generate_never_raises (env : GenEnv) (a : GenArgs) : C1Holds env a := by
  have hshape : (generate env a).success = false →
      (generate env a).video_path = none ∧ (generate env a).error ≠ none := by
    rcases htr : truthyExisting env.pathExists a.start_frame_path with _ | p
    · rcases hprov : a.provider with _ | _
      · rcases hok : generate_kie_ai env a.prompt a.model a.product_image_path
            a.start_frame_path a.duration with e | r
        · simp [generate, htr, hprov, hok]
        · simp only [generate, htr, hprov, hok]
          simpa using generate_kie_ai_ok_shape env a.prompt a.model
            a.product_image_path a.start_frame_path a.duration r hok
      · rcases hok : generate_defapi env a.prompt a.model a.product_image_path
            a.start_frame_path a.duration with e | r
        · simp [generate, htr, hprov, hok]
        · simp only [generate, htr, hprov, hok]
          simpa using generate_defapi_ok_shape env a.prompt a.model
            a.product_image_path a.start_frame_path a.duration r hok
    · rcases hok : generate_kie_ai_i2v env a.prompt p a.duration with e | r
      · simp [generate, htr, hok]
      · simp only [generate, htr, hok]
        simpa using generate_kie_ai_i2v_ok_shape env a.prompt p a.duration r hok
  refine ⟨hshape, ?_⟩
  intro hk hi hd
  have hfail : (generate env a).success = false := by
    rcases htr : truthyExisting env.pathExists a.start_frame_path with _ | p
    · rcases hprov : a.provider with _ | _
      · rcases hok : generate_kie_ai env a.prompt a.model a.product_image_path
            a.start_frame_path a.duration with e | r
        · simp [generate, htr, hprov, hok]
        · simp only [generate, htr, hprov, hok]
          exact generate_kie_ai_not_success_of_failed env a.prompt a.model
            a.product_image_path a.start_frame_path a.duration hk r hok
      · rcases hok : generate_defapi env a.prompt a.model a.product_image_path
            a.start_frame_path a.duration with e | r
        · simp [generate, htr, hprov, hok]
        · simp only [generate, htr, hprov, hok]
          exact generate_defapi_not_success_of_failed env a.prompt a.model
            a.product_image_path a.start_frame_path a.duration hd r hok
    · rcases hok : generate_kie_ai_i2v env a.prompt p a.duration with e | r
      · simp [generate, htr, hok]
      · simp only [generate, htr, hok]
        exact generate_kie_ai_i2v_not_success_of_failed env a.prompt p
          a.duration hi r hok
  exact ⟨hfail, (hshape hfail).1, (hshape hfail).2⟩

/-- The concrete environment used by the C1 witness: the provider reports
`failed` status at every poll of every endpoint. -/
def envAllFailed : GenEnv :=
  { pathExists := fun _ => false
    readFileB64 := fun _ => .ok ""
    kie_submit := .ok {}
    kie_poll := fun _ => .ok kieFailedResp
    i2v_submit := .ok {}
    i2v_poll := fun _ => .ok kieFailedResp
    defapi_submit := .ok { code := some 0, task_id := some "t" }
    defapi_poll := fun _ => .ok defapiFailedResp
    download := .ok "/storage/v.mp4" }

/-- The concrete arguments used by the C1 and C7 witnesses: a plain
Kie.ai Sora 2 request without images. -/
def argsKieSora : GenArgs :=
  { prompt := "p", provider := .kie_ai, model := .sora_2 }

/-- Witness for C1: with every poll reporting `failed`, a concrete call
returns `success = false`, no video path and an error message. -/
theorem generate_never_raises_witness :
    (generate envAllFailed argsKieSora).success = false ∧
    (generate envAllFailed argsKieSora).video_path = none ∧
    (generate envAllFailed argsKieSora).error ≠ none :=
  (generate_never_raises envAllFailed argsKieSora).2
    (fun _ => rfl) (fun _ => rfl) (fun _ => rfl)

/-! ### Poll-timeout lemmas (claim C7) -/

/-- A Kie.ai poll response that is neither `completed` nor `failed`:
retried until the attempt ceiling. -/
def kieNonTerminal (r : KiePollResp) : Prop :=
  r.status ≠ some "completed" ∧ r.status ≠ some "failed"

/-- A defapi.org poll response with zero code whose status is none of the
terminal ones: retried until the attempt ceiling. -/
def defapiNonTerminal (r : DefapiPollResp) : Prop :=
  r.code = some 0 ∧ r.status ≠ some "completed" ∧ r.status ≠ some "success" ∧
    r.status ≠ some "failed" ∧ r.status ≠ some "error"

theorem poll_kie_ai_pending (responses : Nat → Except String KiePollResp) :
    ∀ (fuel att : Nat),
      (∀ k, k < fuel → ∃ r, responses (att + k) = .ok r ∧ kieNonTerminal r) →
      poll_kie_ai responses fuel att = .ok none := by
  intro fuel
  induction fuel with
  | zero => intro att _; rfl
  | succ n ih =>
    intro att h
    obtain ⟨r, hr, hnc, hnf⟩ := h 0 (Nat.succ_pos n)
    rw [Nat.add_zero] at hr
    rw [poll_kie_ai, hr]
    simp only [bind, Except.bind]
    rw [if_neg hnc, if_neg hnf]
    refine ih (att + 1) (fun k hk => ?_)
    have := h (k + 1) (Nat.succ_lt_succ hk)
    rwa [show att + (k + 1) = att + 1 + k by omega] at this

theorem poll_defapi_pending (responses : Nat → Except String DefapiPollResp) :
    ∀ (fuel att : Nat),
      (∀ k, k < fuel → ∃ r, responses (att + k) = .ok r ∧ defapiNonTerminal r) →
      poll_defapi responses fuel att = .ok none := by
  intro fuel
  induction fuel with
  | zero => intro att _; rfl
  | succ n ih =>
    intro att h
    obtain ⟨r, hr, hcode, hcomp, hsucc, hfail, herr⟩ := h 0 (Nat.succ_pos n)
    rw [Nat.add_zero] at hr
    rw [poll_defapi, hr]
    simp only [bind, Except.bind]
    rw [if_neg (by simp [hcode]), if_neg (not_or.mpr ⟨hcomp, hsucc⟩),
      if_neg (not_or.mpr ⟨hfail, herr⟩)]
    refine ih (att + 1) (fun k hk => ?_)
    have := h (k + 1) (Nat.succ_lt_succ hk)
    rwa [show att + (k + 1) = att + 1 + k by omega] at this

theorem kieImageField_isOk (env : GenEnv) (sf pi : Option String)
    (hread : ∀ p, ∃ b, env.readFileB64 p = .ok b) :
    ∃ v, kieImageField env sf pi = .ok v := by
  unfold kieImageField
  rcases hsf : truthyExisting env.pathExists sf with _ | p
  · rcases hpi : truthyExisting env.pathExists pi with _ | q
    · exact ⟨none, by simp [hsf, hpi, pure, Except.pure]⟩
    · obtain ⟨b, hb⟩ := hread q
      refine ⟨some ("data:image/jpeg;base64," ++ b), ?_⟩
      simp [hsf, hpi, bind, Except.bind, hb, pure, Except.pure]
  · obtain ⟨b, hb⟩ := hread p
    refine ⟨some ("data:image/jpeg;base64," ++ b), ?_⟩
    simp [hsf, bind, Except.bind, hb, pure, Except.pure]

theorem defapiSoraInputReference_isOk (env : GenEnv) (sf pi : Option String)
    (hread : ∀ p, ∃ b, env.readFileB64 p = .ok b) :
    ∃ v, defapiSoraInputReference env sf pi = .ok v := by
  unfold defapiSoraInputReference
  rcases hsf : truthyExisting env.pathExists sf with _ | p
  · rcases hpi : truthyExisting env.pathExists pi with _ | q
    · exact ⟨none, by simp [hsf, hpi, pure, Except.pure]⟩
    · obtain ⟨b, hb⟩ := hread q
      refine ⟨some ("data:" ++ mimeFor q ++ ";base64," ++ b), ?_⟩
      simp [hsf, hpi, bind, Except.bind, hb, pure, Except.pure]
  · obtain ⟨b, hb⟩ := hread p
    refine ⟨some ("data:" ++ mimeFor p ++ ";base64," ++ b), ?_⟩
    simp [hsf, bind, Except.bind, hb, pure, Except.pure]

theorem defapiVeoImageField_isOk (env : GenEnv) (sf pi : Option String)
    (hread : ∀ p, ∃ b, env.readFileB64 p = .ok b) :
    ∃ v, defapiVeoImageField env sf pi = .ok v := by
  unfold defapiVeoImageField
  rcases hsf : truthyExisting env.pathExists sf with _ | p
  · rcases hpi : truthyExisting env.pathExists pi with _ | q
    · exact ⟨none, by simp [hsf, hpi, pure, Except.pure]⟩
    · obtain ⟨b, hb⟩ := hread q
      refine ⟨some ("data:image/jpeg;base64," ++ b), ?_⟩
      simp [hsf, hpi, bind, Except.bind, hb, pure, Except.pure]
  · obtain ⟨b, hb⟩ := hread p
    refine ⟨some ("data:image/jpeg;base64," ++ b), ?_⟩
    simp [hsf, bind, Except.bind, hb, pure, Except.pure]

theorem generate_kie_ai_i2v_timeout (env : GenEnv) (prompt : String)
    (p : String) (dur : ℚ)
    (hread : ∀ q, ∃ b, env.readFileB64 q = .ok b)
    (his : ∃ s, env.i2v_submit = .ok s)
    (hpoll : poll_kie_ai env.i2v_poll KIE_MAX_ATTEMPTS 0 = .ok none) :
    generate_kie_ai_i2v env prompt p dur =
      .ok { success := false, error := some "Generation timed out",
            provider := "kie.ai", model := "sora-2-i2v" } := by
  obtain ⟨b, hb⟩ := hread p
  obtain ⟨s, hs⟩ := his
  simp [generate_kie_ai_i2v, bind, Except.bind, hb, hs, hpoll, strTruthy,
    pure, Except.pure]

theorem generate_kie_ai_timeout (env : GenEnv) (prompt : String)
    (model : Model) (pip sfp : Option String) (dur : ℚ) (km : String)
    (hm : model_map model = some km)
    (hread : ∀ q, ∃ b, env.readFileB64 q = .ok b)
    (hks : ∃ s, env.kie_submit = .ok s)
    (hpoll : poll_kie_ai env.kie_poll KIE_MAX_ATTEMPTS 0 = .ok none) :
    generate_kie_ai env prompt model pip sfp dur =
      .ok { success := false, error := some "Generation timed out",
            provider := "kie.ai", model := model.value } := by
  obtain ⟨v, hv⟩ := kieImageField_isOk env sfp pip hread
  obtain ⟨s, hs⟩ := hks
  simp [generate_kie_ai, hm, bind, Except.bind, hv, hs, hpoll, strTruthy,
    pure, Except.pure]

theorem generate_defapi_timeout (env : GenEnv) (prompt : String)
    (model : Model) (pip sfp : Option String) (dur : ℚ)
    (hread : ∀ q, ∃ b, env.readFileB64 q = .ok b)
    (hds : ∃ s, env.defapi_submit = .ok s ∧ s.code = some 0 ∧
      strTruthy s.task_id = true)
    (hpoll : poll_defapi env.defapi_poll DEFAPI_MAX_ATTEMPTS 0 = .ok none) :
    generate_defapi env prompt model pip sfp dur =
      .ok { success := false, error := some "Generation timed out",
            provider := "defapi.org", model := model.value } := by
  obtain ⟨s, hs, hcode, htask⟩ := hds
  have hnone : strTruthy none = false := rfl
  by_cases hm : model = .defapi_sora_2
  · obtain ⟨v, hv⟩ := defapiSoraInputReference_isOk env sfp pip hread
    simp [generate_defapi, hm, bind, Except.bind, hv, hs, hcode, htask,
      hpoll, hnone, pure, Except.pure]
  · obtain ⟨v, hv⟩ := defapiVeoImageField_isOk env sfp pip hread
    simp [generate_defapi, hm, bind, Except.bind, hv, hs, hcode, htask,
      hpoll, hnone, pure, Except.pure]

/-! ## Claim C7 -/

/-- Claim C7, as amended: a poll loop that reaches its attempt ceiling
(60 attempts for Kie.ai, 120 for defapi.org) without a terminal status
makes the client return `success = false` with error exactly
`"Generation timed out"`.  The second half of the original claim — that
this outcome is distinct from a provider-reported failure — is false: both
poll helpers return `None` for a `failed` status and for a timeout alike,
so the caller produces the identical result (see the counterexample). -/
def C7Holds (env : GenEnv) (a : GenArgs) : Prop :=
  (generate env a).success = false ∧
    (generate env a).error = some "Generation timed out"

/-- C7 (amended): valid routes whose submission and file reads succeed and
whose polls stay non-terminal through the attempt ceiling produce the
timed-out failure result. -/
theorem poll_ceiling_timeout (env : GenEnv) (a : GenArgs)
    (hroute : a.provider = .kie_ai → model_map a.model ≠ none)
    (hk : ∀ k, k < KIE_MAX_ATTEMPTS →
      ∃ r, env.kie_poll k = .ok r ∧ kieNonTerminal r)
    (hi : ∀ k, k < KIE_MAX_ATTEMPTS →
      ∃ r, env.i2v_poll k = .ok r ∧ kieNonTerminal r)
    (hd : ∀ k, k < DEFAPI_MAX_ATTEMPTS →
      ∃ r, env.defapi_poll k = .ok r ∧ defapiNonTerminal r)
    (hks : ∃ s, env.kie_submit = .ok s)
    (his : ∃ s, env.i2v_submit = .ok s)
    (hds : ∃ s, env.defapi_submit = .ok s ∧ s.code = some 0 ∧
      strTruthy s.task_id = true)
    (hread : ∀ p, ∃ b, env.readFileB64 p = .ok b) :
    C7Holds env a := by
  have hpk : poll_kie_ai env.kie_poll KIE_MAX_ATTEMPTS 0 = .ok none :=
    poll_kie_ai_pending _ _ 0 (fun k hlt => by
      rw [Nat.zero_add]
      exact hk k hlt)
  have hpi : poll_kie_ai env.i2v_poll KIE_MAX_ATTEMPTS 0 = .ok none :=
    poll_kie_ai_pending _ _ 0 (fun k hlt => by
      rw [Nat.zero_add]
      exact hi k hlt)
  have hpd : poll_defapi env.defapi_poll DEFAPI_MAX_ATTEMPTS 0 = .ok none :=
    poll_defapi_pending _ _ 0 (fun k hlt => by
      rw [Nat.zero_add]
      exact hd k hlt)
  rcases htr : truthyExisting env.pathExists a.start_frame_path with _ | p
  · rcases hprov : a.provider with _ | _
    · obtain ⟨km, hm⟩ := Option.ne_none_iff_exists'.mp (hroute hprov)
      have := generate_kie_ai_timeout env a.prompt a.model a.product_image_path
        a.start_frame_path a.duration km hm hread hks hpk
      constructor <;> simp [generate, htr, hprov, this]
    · have := generate_defapi_timeout env a.prompt a.model a.product_image_path
        a.start_frame_path a.duration hread hds hpd
      constructor <;> simp [generate, htr, hprov, this]
  · have := generate_kie_ai_i2v_timeout env a.prompt p a.duration hread his hpi
    constructor <;> simp [generate, htr, this]

/-- The concrete environment used by the C7 witness and counterexample:
every poll reports a non-terminal `"processing"` status forever, so every
poll loop runs into its attempt ceiling. -/
def envAllPending : GenEnv :=
  { pathExists := fun _ => false
    readFileB64 := fun _ => .ok ""
    kie_submit := .ok {}
    kie_poll := fun _ => .ok { status := some "processing" }
    i2v_submit := .ok {}
    i2v_poll := fun _ => .ok { status := some "processing" }
    defapi_submit := .ok { code := some 0, task_id := some "t" }
    defapi_poll := fun _ => .ok { code := some 0, status := some "processing" }
    download := .ok "/storage/v.mp4" }

/-- Witness for C7 (amended): a concrete Kie.ai Sora 2 call whose polls
never terminate returns the timed-out failure. -/
theorem poll_ceiling_timeout_witness : C7Holds envAllPending argsKieSora :=
  poll_ceiling_timeout envAllPending argsKieSora
    (fun _ => by simp [model_map, argsKieSora])
    (fun k _ => ⟨{ status := some "processing" }, rfl, by simp [kieNonTerminal],
      by simp [kieNonTerminal]⟩)
    (fun k _ => ⟨{ status := some "processing" }, rfl, by simp [kieNonTerminal],
      by simp [kieNonTerminal]⟩)
    (fun k _ => ⟨{ code := some 0, status := some "processing" }, rfl,
      rfl, by simp, by simp, by simp, by simp⟩)
    ⟨{}, rfl⟩ ⟨{}, rfl⟩
    ⟨{ code := some 0, task_id := some "t" }, rfl, rfl, rfl⟩
    (fun p => ⟨"", rfl⟩)

/-- Counterexample to C7 as stated: the outcome of a provider-reported
`failed` status is **not** distinct from the timed-out outcome — the very
same `GenerationResult` (with error `"Generation timed out"`) is returned
whether the provider reports `failed` at the first poll or never reports a
terminal status at all. -/
theorem timeout_not_distinct_counterexample :
    generate envAllFailed argsKieSora = generate envAllPending argsKieSora ∧
    (generate envAllFailed argsKieSora).error = some "Generation timed out" ∧
    (generate envAllFailed argsKieSora).success = false :=
  ⟨rfl, rfl, rfl⟩

/-! ## Claim C9 -/

/-- Claim C9: whenever `start_frame_path` names an existing file, the
request is routed to the Kie.ai Sora 2 image-to-video endpoint regardless
of the requested provider and model, and a successful result reports
provider `kie.ai`, model `sora-2-i2v` and cost estimate `0.15`. -/
def C9Holds (env : GenEnv) (a : GenArgs) (p : String) : Prop :=
  generate env a = (match generate_kie_ai_i2v env a.prompt p a.duration with
    | .ok r => r
    | .error e => { success := false, error := some e, provider := a.provider.value, model := a.model.value }) ∧
  ((generate env a).success = true → (generate env a).provider = "kie.ai" ∧
    (generate env a).model = "sora-2-i2v" ∧
    (generate env a).cost_estimate = 3/20)

theorem generate_kie_ai_i2v_ok_provider (env : GenEnv) (prompt : String)
    (sfp : String) (dur : ℚ) (r : GenerationResult)
    (h : generate_kie_ai_i2v env prompt sfp dur = .ok r) :
    r.provider = "kie.ai" ∧ r.model = "sora-2-i2v" ∧
      (r.success = true → r.cost_estimate = 3/20) := by
  simp only [generate_kie_ai_i2v, bind, Except.bind, pure, Except.pure] at h
  repeat' split at h
  all_goals cases h <;> simp

/-- C9 (confirmed): an existing start frame always routes to the I2V
endpoint, whose successful results carry provider `kie.ai`, model
`sora-2-i2v` and cost `0.15`. -/
theorem start_frame_routes_to_i2v (env : GenEnv) (a : GenArgs) (p : String)
    (hp : truthyExisting env.pathExists a.start_frame_path = some p) :
    C9Holds env a p := by
  constructor
  · simp only [generate, hp]
  · rcases hok : generate_kie_ai_i2v env a.prompt p a.duration with e | r
    · intro hs
      rw [generate, hp] at hs ⊢
      simp only [hok] at hs
      simp at hs
    · intro hs
      rw [generate, hp]
      simp only [hok]
      have := generate_kie_ai_i2v_ok_provider env a.prompt p a.duration r hok
      exact ⟨this.1, this.2.1, this.2.2 (by
        rw [generate, hp] at hs
        simpa [hok] using hs)⟩

/-- The concrete environment of the C9 witness: the start frame exists,
the I2V submission succeeds and the first poll completes with a URL. -/
def envI2vSuccess : GenEnv :=
  { pathExists := fun _ => true
    readFileB64 := fun _ => .ok "QUJD"
    kie_submit := .ok {}
    kie_poll := fun _ => .ok { status := some "processing" }
    i2v_submit := .ok { task_id := some "t1" }
    i2v_poll := fun _ => .ok { status := some "completed", video_url := some "https://cdn/v.mp4" }
    defapi_submit := .ok { code := some 0, task_id := some "t" }
    defapi_poll := fun _ => .ok { code := some 0, status := some "processing" }
    download := .ok "/storage/s1/variant_000.mp4" }

/-- The concrete arguments of the C9 witness: a **defapi.org Veo** request
that nevertheless carries an existing start frame. -/
def argsDefapiWithFrame : GenArgs :=
  { prompt := "p", provider := .defapi, model := .defapi_veo_3_1,
    product_image_path := some "/img/product.jpg",
    start_frame_path := some "/frames/last.png" }

/-- Witness for C9: the defapi request with a start frame succeeds through
the Kie.ai I2V endpoint and reports `kie.ai` / `sora-2-i2v` / `0.15`. -/
theorem start_frame_routes_to_i2v_witness :
    (generate envI2vSuccess argsDefapiWithFrame).success = true ∧
    (generate envI2vSuccess argsDefapiWithFrame).provider = "kie.ai" ∧
    (generate envI2vSuccess argsDefapiWithFrame).model = "sora-2-i2v" ∧
    (generate envI2vSuccess argsDefapiWithFrame).cost_estimate = 3/20 := by
  have hs : (generate envI2vSuccess argsDefapiWithFrame).success = true := rfl
  have h := (start_frame_routes_to_i2v envI2vSuccess argsDefapiWithFrame
    "/frames/last.png" rfl).2 hs
  exact ⟨hs, h.1, h.2.1, h.2.2⟩

/-! ## Pipeline orchestrator (`backend/tasks/video_processor.py`)

`process_video_pipeline` is modelled over the same generator embedding:
the environment supplies one `GenEnv` per generation call (indexed by
variant and clip position), the frame-extraction collaborator
(`image_processor.extract_last_frame`, whose exceptions the orchestrator
catches) and the storage upload.  The model covers the runs the claims
quantify over: the external collaborators (download, scene detection,
prompt generation, upload) succeed and only clip generations and frame
extractions may fail; on such runs the `except` block at the bottom of the
task never triggers.  The source accumulates its lists by appending inside
`for` loops; the recursions below build the identical lists front to
back. -/

/-- One entry of `analysis.clip_prompts`, as read by the clip loop
(`clip_prompt.get("clip_index", 0)`, `.get("prompt", "")`,
`.get("target_duration", 15.0)`, `.get("duration", target_duration)`). -/
structure ClipPromptInfo where
  clip_index : Nat := 0
  prompt : String := ""
  target_duration : ℚ := 15
  duration : ℚ := 15
deriving Repr

/-- One per-clip dict appended to `variant_clips`. -/
structure ClipRecord where
  clip_index : Nat
  duration : ℚ
  target_duration : ℚ
  prompt : String
  video_url : Option String
  status : String
  error : Option String := none
  cost : ℚ
deriving Repr

/-- One per-variant dict appended to `all_variants`. -/
structure VariantRecord where
  variant_index : Nat
  clips : List ClipRecord
  status : String
  total_cost : ℚ
deriving Repr

/-- The `(status, progress)` pair of one `update_job_status` call. -/
structure StatusUpdate where
  status : String
  progress : ℚ
deriving DecidableEq, Repr

/-- A record of one `video_generator.generate` call made by the clip
loop: which variant, which position in the prompt list, the clip index
from the prompt, the arguments passed, and the returned result. -/
structure CallRecord where
  variant_index : Nat
  position : Nat
  clip_index : Nat
  args : GenArgs
  result : GenerationResult

/-- The environment of one pipeline run: the generator environment of each
(variant, clip-position) call, the frame-extraction collaborator (an
`Except.error` models the exception caught at lines 382-384) and the
storage upload URL. -/
structure PipeEnv where
  genEnv : Nat → Nat → GenEnv
  extract_last_frame : Nat → Nat → String → Except String String
  upload_url : Nat → Nat → String → String

/-- The fixed inputs of one pipeline run (the task arguments plus the
prompt list returned by the Gemini collaborator). -/
structure PipeArgs where
  session_id : String := ""
  product_image_path : Option String := none
  num_variants : Nat := 1
  provider : Provider := .kie_ai
  model : Model := .sora_2
  prompts : List ClipPromptInfo := []

/-- The branch condition `if result.success and result.video_path:`. -/
def clipOk (r : GenerationResult) : Bool :=
  r.success && strTruthy r.video_path

/-- `start_frame = last_frame_path if clip_index > 0 and last_frame_path
else None` (lines 320-324). -/
def clipStartFrame (last_frame_path : Option String) (cp : ClipPromptInfo) :
    Option String :=
  if 0 < cp.clip_index ∧ strTruthy last_frame_path then last_frame_path
  else none

/-- The arguments of the `video_generator.generate` call at lines
350-359. -/
def clipArgs (pa : PipeArgs) (variant_idx : Nat)
    (last_frame_path : Option String) (cp : ClipPromptInfo) : GenArgs :=
  { prompt := cp.prompt, provider := pa.provider, model := pa.model,
    product_image_path := pa.product_image_path,
    start_frame_path := clipStartFrame last_frame_path cp,
    duration := cp.target_duration, session_id := pa.session_id,
    variant_index := variant_idx * pa.prompts.length + cp.clip_index }

/-- The `update_job_status` call of the generation phase:
`progress = 60.0 + completed_generations / total_generations * 30.0`. -/
def genUpd (total_generations completed : Nat) : StatusUpdate :=
  { status := "generating",
    progress := 60 + (completed : ℚ) / (total_generations : ℚ) * 30 }

/-- The dict appended to `variant_clips` for a successful clip. -/
def completedRecord (cp : ClipPromptInfo) (url : String) (cost : ℚ) :
    ClipRecord :=
  { clip_index := cp.clip_index, duration := cp.duration,
    target_duration := cp.target_duration, prompt := cp.prompt,
    video_url := some url, status := "completed", cost := cost }

/-- The dict appended to `variant_clips` for a failed clip. -/
def failedRecord (cp : ClipPromptInfo) (error : Option String) : ClipRecord :=
  { clip_index := cp.clip_index, duration := cp.duration,
    target_duration := cp.target_duration, prompt := cp.prompt,
    video_url := none, status := "failed", error := error, cost := 0 }

/-- The lists produced by one variant's clip loop, plus the final
`completed_generations` counter. -/
structure ClipLoopOut where
  clips : List ClipRecord
  calls : List CallRecord
  updates : List StatusUpdate
  completed : Nat

/-- The per-variant clip loop (lines 307-427): for each prompt, write the
generation-phase status update, call the generator (chaining the previous
clip's extracted last frame as `start_frame` when available), and record a
completed or failed clip; a successful clip's last frame is extracted for
the next clip (extraction failure resets the chain, line 384), a failed
clip resets the chain (line 414). -/
def runClips (env : PipeEnv) (pa : PipeArgs) (variant_idx : Nat) :
    List ClipPromptInfo → Nat → Nat → Option String → ClipLoopOut
  | [], _, completed, _ => ⟨[], [], [], completed⟩
  | cp :: rest, pos, completed, last_frame_path =>
    let args := clipArgs pa variant_idx last_frame_path cp
    let result := generate (env.genEnv variant_idx pos) args
    let upd := genUpd (pa.num_variants * pa.prompts.length) completed
    if clipOk result then
      let url := env.upload_url variant_idx pos (result.video_path.getD "")
      let next := runClips env pa variant_idx rest (pos + 1) (completed + 1)
        (match env.extract_last_frame variant_idx pos
            (result.video_path.getD "") with
         | .ok f => some f
         | .error _ => none)
      ⟨completedRecord cp url result.cost_estimate :: next.clips,
       ⟨variant_idx, pos, cp.clip_index, args, result⟩ :: next.calls,
       upd :: next.updates, next.completed⟩
    else
      let next := runClips env pa variant_idx rest (pos + 1) (completed + 1) none
      ⟨failedRecord cp result.error :: next.clips,
       ⟨variant_idx, pos, cp.clip_index, args, result⟩ :: next.calls,
       upd :: next.updates, next.completed⟩

/-- `variant_status = "completed" if all(c["status"] == "completed" for c
in variant_clips) else "partial"` (line 429). -/
def variantStatus (clips : List ClipRecord) : String :=
  if clips.all (fun c => c.status == "completed") then "completed"
  else "partial"

/-- The clip loop of variant `v`, started as the source does: position 0,
no chaining state.  (`completed_generations` is started at 0 here; the
clip records and calls do not depend on it, see
`runClips_completed_irrelevant`.) -/
def variantOut (env : PipeEnv) (pa : PipeArgs) (v : Nat) : ClipLoopOut :=
  runClips env pa v pa.prompts 0 0 none

/-- The per-variant record built at lines 429-445. -/
def variantRecordOf (env : PipeEnv) (pa : PipeArgs) (v : Nat) : VariantRecord :=
  { variant_index := v, clips := (variantOut env pa v).clips,
    status := variantStatus (variantOut env pa v).clips,
    total_cost := ((variantOut env pa v).clips.map (fun c => c.cost)).sum }

/-- The outputs of the variant loop. -/
structure VariantLoopOut where
  variants : List VariantRecord
  updates : List StatusUpdate
  calls : List CallRecord

/-- The variant loop `for variant_idx in range(num_variants)` (lines
299-445), threading the global `completed_generations` counter. -/
def runVariants (env : PipeEnv) (pa : PipeArgs) :
    Nat → Nat → Nat → VariantLoopOut
  | _, _, 0 => ⟨[], [], []⟩
  | variant_idx, completed, n + 1 =>
    let out := runClips env pa variant_idx pa.prompts 0 completed none
    let vrec : VariantRecord :=
      { variant_index := variant_idx, clips := out.clips,
        status := variantStatus out.clips,
        total_cost := (out.clips.map (fun c => c.cost)).sum }
    let rest := runVariants env pa (variant_idx + 1) out.completed n
    ⟨vrec :: rest.variants, out.updates ++ rest.updates,
     out.calls ++ rest.calls⟩

/-- The nine `update_job_status` calls before the generation loop (lines
113-281): download 5 and 15, scene detection 20 and 30, segmentation 32
and 35, Gemini analysis 40 and 55, ready 60. -/
def preGenerationUpdates : List StatusUpdate :=
  [⟨"downloading", 5⟩, ⟨"downloading", 15⟩, ⟨"analyzing", 20⟩,
   ⟨"analyzing", 30⟩, ⟨"analyzing", 32⟩, ⟨"analyzing", 35⟩,
   ⟨"analyzing", 40⟩, ⟨"analyzing", 55⟩, ⟨"analyzing", 60⟩]

/-- `process_video_pipeline` on a run where only clip generations and
frame extractions fail: the milestone updates, the variant loop, and the
final `completed` update with progress 100. -/
def process_video_pipeline (env : PipeEnv) (pa : PipeArgs) :
    List VariantRecord × List StatusUpdate × List CallRecord :=
  let out := runVariants env pa 0 0 pa.num_variants
  (out.variants,
   preGenerationUpdates ++ out.updates ++ [⟨"completed", 100⟩],
   out.calls)

/-! ### Orchestrator lemmas -/

theorem runClips_completed (env : PipeEnv) (pa : PipeArgs) (v : Nat) :
    ∀ (ps : List ClipPromptInfo) (pos completed : Nat) (lf : Option String),
      (runClips env pa v ps pos completed lf).completed =
        completed + ps.length := by
  intro ps
  induction ps with
  | nil => intro pos c lf; rfl
  | cons cp rest ih =>
    intro pos c lf
    simp only [runClips]
    split
    · simp only [List.length_cons]
      rw [ih]
      omega
    · simp only [List.length_cons]
      rw [ih]
      omega

theorem runClips_clips_length (env : PipeEnv) (pa : PipeArgs) (v : Nat) :
    ∀ (ps : List ClipPromptInfo) (pos completed : Nat) (lf : Option String),
      (runClips env pa v ps pos completed lf).clips.length = ps.length := by
  intro ps
  induction ps with
  | nil => intro pos c lf; rfl
  | cons cp rest ih =>
    intro pos c lf
    simp only [runClips]
    split <;> simp [ih]

theorem runClips_calls_length (env : PipeEnv) (pa : PipeArgs) (v : Nat) :
    ∀ (ps : List ClipPromptInfo) (pos completed : Nat) (lf : Option String),
      (runClips env pa v ps pos completed lf).calls.length = ps.length := by
  intro ps
  induction ps with
  | nil => intro pos c lf; rfl
  | cons cp rest ih =>
    intro pos c lf
    simp only [runClips]
    split <;> simp [ih]

theorem runClips_updates (env : PipeEnv) (pa : PipeArgs) (v : Nat) :
    ∀ (ps : List ClipPromptInfo) (pos completed : Nat) (lf : Option String),
      (runClips env pa v ps pos completed lf).updates =
        (List.range ps.length).map
          (fun i => genUpd (pa.num_variants * pa.prompts.length)
            (completed + i)) := by
  intro ps
  induction ps with
  | nil => intro pos c lf; rfl
  | cons cp rest ih =>
    intro pos c lf
    have hstep : ∀ (nextUpd : List StatusUpdate),
        nextUpd = (List.range rest.length).map
          (fun i => genUpd (pa.num_variants * pa.prompts.length) (c + 1 + i)) →
        genUpd (pa.num_variants * pa.prompts.length) c :: nextUpd =
          (List.range (cp :: rest).length).map
            (fun i => genUpd (pa.num_variants * pa.prompts.length) (c + i)) := by
      intro nextUpd hn
      rw [hn, List.length_cons, List.range_succ_eq_map, List.map_cons,
        List.map_map]
      refine congrArg₂ _ (by rw [Nat.add_zero]) ?_
      refine List.map_congr_left (fun i _ => ?_)
      simp only [Function.comp]
      refine congrArg _ (by omega)
    simp only [runClips]
    split
    · exact hstep _ (ih (pos + 1) (c + 1) _)
    · exact hstep _ (ih (pos + 1) (c + 1) none)

theorem runClips_clips_wf (env : PipeEnv) (pa : PipeArgs) (v : Nat) :
    ∀ (ps : List ClipPromptInfo) (pos completed : Nat) (lf : Option String),
      ∀ r ∈ (runClips env pa v ps pos completed lf).clips,
        r.status = "completed" ∨ (r.status = "failed" ∧ r.cost = 0) := by
  intro ps
  induction ps with
  | nil => intro pos c lf r hr; simp [runClips] at hr
  | cons cp rest ih =>
    intro pos c lf r hr
    simp only [runClips] at hr
    rcases hcond : clipOk (generate (env.genEnv v pos)
        (clipArgs pa v lf cp)) with _ | _
    · rw [if_neg (by simp [hcond])] at hr
      rcases List.mem_cons.mp hr with rfl | hr
      · exact Or.inr ⟨rfl, rfl⟩
      · exact ih (pos + 1) (c + 1) none r hr
    · rw [if_pos (by simp [hcond])] at hr
      rcases List.mem_cons.mp hr with rfl | hr
      · exact Or.inl rfl
      · exact ih (pos + 1) (c + 1) _ r hr

theorem runClips_clips_calls_irrel (env : PipeEnv) (pa : PipeArgs) (v : Nat) :
    ∀ (ps : List ClipPromptInfo) (pos c1 c2 : Nat) (lf : Option String),
      (runClips env pa v ps pos c1 lf).clips =
        (runClips env pa v ps pos c2 lf).clips ∧
      (runClips env pa v ps pos c1 lf).calls =
        (runClips env pa v ps pos c2 lf).calls := by
  intro ps
  induction ps with
  | nil => intro pos c1 c2 lf; exact ⟨rfl, rfl⟩
  | cons cp rest ih =>
    intro pos c1 c2 lf
    simp only [runClips]
    split
    · obtain ⟨h1, h2⟩ := ih (pos + 1) (c1 + 1) (c2 + 1) _
      exact ⟨by rw [h1], by rw [h2]⟩
    · obtain ⟨h1, h2⟩ := ih (pos + 1) (c1 + 1) (c2 + 1) none
      exact ⟨by rw [h1], by rw [h2]⟩

theorem runClips_calls_get (env : PipeEnv) (pa : PipeArgs) (v : Nat) :
    ∀ (ps : List ClipPromptInfo) (pos completed : Nat) (lf : Option String)
      (i : Nat) (cp : ClipPromptInfo), ps[i]? = some cp →
      ∃ c, (runClips env pa v ps pos completed lf).calls[i]? = some c ∧
        c.variant_index = v ∧ c.position = pos + i ∧
        c.clip_index = cp.clip_index ∧
        c.args.product_image_path = pa.product_image_path ∧
        c.args.prompt = cp.prompt ∧ c.args.provider = pa.provider ∧
        c.args.model = pa.model ∧
        c.result = generate (env.genEnv v c.position) c.args := by
  intro ps
  induction ps with
  | nil => intro pos c lf i cp h; simp at h
  | cons cp0 rest ih =>
    intro pos c lf i cp h
    rcases i with _ | j
    · simp only [List.getElem?_cons_zero, Option.some_inj] at h
      subst h
      simp only [runClips]
      split <;>
      exact ⟨⟨v, pos, cp0.clip_index, clipArgs pa v lf cp0,
          generate (env.genEnv v pos) (clipArgs pa v lf cp0)⟩,
        by simp, rfl, rfl, rfl, rfl, rfl, rfl, rfl, rfl⟩
    · rw [List.getElem?_cons_succ] at h
      simp only [runClips]
      split
      · obtain ⟨c2, hc2, hrest⟩ := ih (pos + 1) (c + 1) _ j cp h
        refine ⟨c2, by simpa using hc2, hrest.1, by omega, hrest.2.2⟩
      · obtain ⟨c2, hc2, hrest⟩ := ih (pos + 1) (c + 1) none j cp h
        refine ⟨c2, by simpa using hc2, hrest.1, by omega, hrest.2.2⟩

theorem runClips_calls_head (env : PipeEnv) (pa : PipeArgs) (v : Nat)
    (cp : ClipPromptInfo) (rest : List ClipPromptInfo) (pos completed : Nat)
    (lf : Option String) :
    ∃ c, (runClips env pa v (cp :: rest) pos completed lf).calls[0]? = some c ∧
      c.args.start_frame_path = clipStartFrame lf cp ∧
      c.clip_index = cp.clip_index := by
  simp only [runClips]
  split <;>
  exact ⟨⟨v, pos, cp.clip_index, clipArgs pa v lf cp,
      generate (env.genEnv v pos) (clipArgs pa v lf cp)⟩, by simp, rfl, rfl⟩

/-- The chaining state handed to the next clip after one generation: the
extracted last frame of a successful clip (or `None` when extraction
raised), `None` after a failed clip. -/
def nextChainFrame (env : PipeEnv) (v pos : Nat) (r : GenerationResult) :
    Option String :=
  if clipOk r then
    match env.extract_last_frame v pos (r.video_path.getD "") with
    | .ok f => some f
    | .error _ => none
  else none

theorem runClips_chain (env : PipeEnv) (pa : PipeArgs) (v : Nat) :
    ∀ (ps : List ClipPromptInfo) (pos completed : Nat) (lf : Option String)
      (i : Nat) (c1 c2 : CallRecord),
      (runClips env pa v ps pos completed lf).calls[i]? = some c1 →
      (runClips env pa v ps pos completed lf).calls[i + 1]? = some c2 →
      c2.args.start_frame_path =
        clipStartFrame (nextChainFrame env v (pos + i) c1.result)
          { clip_index := c2.clip_index } := by
  intro ps
  induction ps with
  | nil => intro pos c lf i c1 c2 h1 h2; simp [runClips] at h1
  | cons cp0 rest ih =>
    intro pos c lf i c1 c2 h1 h2
    rcases i with _ | j
    · rcases rest with _ | ⟨cp1, rest2⟩
      · rw [runClips] at h2
        rcases hcond : clipOk (generate (env.genEnv v pos)
            (clipArgs pa v lf cp0)) with _ | _
        · rw [if_neg (by simp [hcond])] at h2
          simp [runClips] at h2
        · rw [if_pos (by simp [hcond])] at h2
          simp [runClips] at h2
      · rw [runClips] at h1 h2
        rcases hcond : clipOk (generate (env.genEnv v pos)
            (clipArgs pa v lf cp0)) with _ | _
        · rw [if_neg (by simp [hcond])] at h1 h2
          simp only [List.getElem?_cons_zero, Option.some_inj] at h1
          simp only [List.getElem?_cons_succ] at h2
          obtain ⟨ch, hch, hsf, hidx⟩ :=
            runClips_calls_head env pa v cp1 rest2 (pos + 1) (c + 1) none
          rw [hch, Option.some_inj] at h2
          subst h2
          rw [hsf, ← h1]
          simp only [nextChainFrame]
          rw [if_neg (by simp [hcond])]
          simp [clipStartFrame, hidx]
        · rw [if_pos (by simp [hcond])] at h1 h2
          simp only [List.getElem?_cons_zero, Option.some_inj] at h1
          simp only [List.getElem?_cons_succ] at h2
          obtain ⟨ch, hch, hsf, hidx⟩ :=
            runClips_calls_head env pa v cp1 rest2 (pos + 1) (c + 1) _
          rw [hch, Option.some_inj] at h2
          subst h2
          rw [hsf, ← h1]
          simp only [nextChainFrame]
          rw [if_pos (by simp [hcond])]
          simp [clipStartFrame, hidx]
    · rw [runClips] at h1 h2
      rcases hcond : clipOk (generate (env.genEnv v pos)
          (clipArgs pa v lf cp0)) with _ | _
      · rw [if_neg (by simp [hcond])] at h1 h2
        simp only [List.getElem?_cons_succ] at h1 h2
        have := ih (pos + 1) (c + 1) none j c1 c2 h1 h2
        rwa [show pos + 1 + j = pos + (j + 1) by omega] at this
      · rw [if_pos (by simp [hcond])] at h1 h2
        simp only [List.getElem?_cons_succ] at h1 h2
        have := ih (pos + 1) (c + 1) _ j c1 c2 h1 h2
        rwa [show pos + 1 + j = pos + (j + 1) by omega] at this

theorem runVariants_variants_get (env : PipeEnv) (pa : PipeArgs) :
    ∀ (n idx completed v : Nat), v < n →
      (runVariants env pa idx completed n).variants[v]? =
        some (variantRecordOf env pa (idx + v)) := by
  intro n
  induction n with
  | zero => intro idx c v hv; omega
  | succ m ih =>
    intro idx c v hv
    rcases v with _ | w
    · simp only [runVariants, List.getElem?_cons_zero, Option.some_inj]
      obtain ⟨hcl, _⟩ :=
        runClips_clips_calls_irrel env pa idx pa.prompts 0 c 0 none
      simp only [variantRecordOf, variantOut, Nat.add_zero]
      rw [hcl]
    · simp only [runVariants, List.getElem?_cons_succ]
      rw [ih (idx + 1) _ w (by omega)]
      rw [show idx + 1 + w = idx + (w + 1) by omega]

theorem variantStatus_spec (clips : List ClipRecord) :
    (variantStatus clips = "completed" ↔ ∀ c ∈ clips, c.status = "completed") ∧
    (variantStatus clips = "partial" ↔ ∃ c ∈ clips, c.status ≠ "completed") := by
  rw [variantStatus]
  split
  · next h =>
    rw [List.all_eq_true] at h
    refine ⟨⟨fun _ c hc => by simpa using h c hc, fun _ => rfl⟩, ?_, ?_⟩
    · intro hcp
      exact absurd hcp (by decide)
    · rintro ⟨c, hc, hne⟩
      exact absurd (by simpa using h c hc) hne
  · next h =>
    rw [List.all_eq_true] at h
    push_neg at h
    obtain ⟨c, hc, hne⟩ := h
    refine ⟨⟨fun hcp => absurd hcp (by decide), fun hall => ?_⟩,
      fun _ => ⟨c, hc, by simpa using hne⟩, fun _ => rfl⟩
    exact absurd (hall c hc) (by simpa using hne)

/-! ## Claim C4 -/

/-- Claim C4: for every variant, every clip in the prompt list is
attempted (the calls trace has one generate call per prompt, whatever the
per-clip outcomes), a failed clip drops the chain for the next call, the
variant status is `completed` iff all clips succeeded and `partial` iff at
least one failed, and the variant cost is the sum of the clip costs with
failed clips contributing 0. -/
def C4Holds (env : PipeEnv) (pa : PipeArgs) (v : Nat) : Prop :=
  ∃ vrec, (process_video_pipeline env pa).1[v]? = some vrec ∧
    vrec.clips.length = pa.prompts.length ∧
    (vrec.status = "completed" ↔ ∀ c ∈ vrec.clips, c.status = "completed") ∧
    (vrec.status = "partial" ↔ ∃ c ∈ vrec.clips, c.status ≠ "completed") ∧
    vrec.total_cost = (vrec.clips.map (fun c => c.cost)).sum ∧
    (∀ c ∈ vrec.clips, c.status ≠ "completed" →
      c.status = "failed" ∧ c.cost = 0) ∧
    (variantOut env pa v).calls.length = pa.prompts.length ∧
    (∀ i c1 c2, (variantOut env pa v).calls[i]? = some c1 →
      (variantOut env pa v).calls[i + 1]? = some c2 →
      clipOk c1.result = false → c2.args.start_frame_path = none)

/-- C4 (confirmed): a failed clip does not abort the variant — all
subsequent clips are still attempted with the chain dropped — and the
variant status and cost aggregate exactly as claimed. -/
theorem failed_clip_not_fatal (env : PipeEnv) (pa : PipeArgs) (v : Nat)
    (hv : v < pa.num_variants) : C4Holds env pa v := by
  refine ⟨variantRecordOf env pa v, ?_, ?_, ?_, ?_, ?_, ?_, ?_, ?_⟩
  · have := runVariants_variants_get env pa pa.num_variants 0 0 v hv
    simpa [process_video_pipeline] using this
  · simp only [variantRecordOf, variantOut]
    exact runClips_clips_length env pa v pa.prompts 0 0 none
  · exact (variantStatus_spec (variantOut env pa v).clips).1
  · exact (variantStatus_spec (variantOut env pa v).clips).2
  · rfl
  · intro c hc hne
    rcases runClips_clips_wf env pa v pa.prompts 0 0 none c hc with h | ⟨h1, h2⟩
    · exact absurd h hne
    · exact ⟨h1, h2⟩
  · exact runClips_calls_length env pa v pa.prompts 0 0 none
  · intro i c1 c2 h1 h2 hfail
    have := runClips_chain env pa v pa.prompts 0 0 none i c1 c2 h1 h2
    rw [this, nextChainFrame, if_neg (by simp [hfail])]
    simp [clipStartFrame, strTruthy]

/-- The trivial pipeline environment used by the C4 and C5 witnesses:
every generation call sees the all-failed provider, frame extraction
raises, upload returns a constant URL. -/
def pipeEnvTrivial : PipeEnv :=
  { genEnv := fun _ _ => envAllFailed
    extract_last_frame := fun _ _ _ => .error "ffmpeg failed"
    upload_url := fun _ _ _ => "https://storage/clip.mp4" }

/-- The pipeline arguments used by the C4 and C5 witnesses: one variant of
two clips. -/
def pipeArgsSimple : PipeArgs :=
  { num_variants := 1, provider := .kie_ai, model := .sora_2,
    prompts := [{ clip_index := 0 }, { clip_index := 1 }] }

/-- Witness for C4 at a concrete input. -/
theorem failed_clip_not_fatal_witness : C4Holds pipeEnvTrivial pipeArgsSimple 0 :=
  failed_clip_not_fatal pipeEnvTrivial pipeArgsSimple 0 (by decide)

/-! ## Claim C5 -/

theorem imageFields_not_none (genv : GenEnv) (sf pi : Option String)
    (q : String) (hq : truthyExisting genv.pathExists pi = some q)
    (hread : ∀ r, ∃ b, genv.readFileB64 r = .ok b) :
    kieImageField genv sf pi ≠ .ok none ∧
      defapiVeoImageField genv sf pi ≠ .ok none ∧
      defapiSoraInputReference genv sf pi ≠ .ok none := by
  refine ⟨?_, ?_, ?_⟩ <;>
  · first
      | unfold kieImageField
      | unfold defapiVeoImageField
      | unfold defapiSoraInputReference
    rcases hsf : truthyExisting genv.pathExists sf with _ | p
    · rw [hq]
      obtain ⟨b, hb⟩ := hread q
      simp [bind, Except.bind, hb, pure, Except.pure]
    · obtain ⟨b, hb⟩ := hread p
      simp [bind, Except.bind, hb, pure, Except.pure]

theorem imageFields_product (genv : GenEnv) (pi : Option String)
    (q b : String) (hq : truthyExisting genv.pathExists pi = some q)
    (hb : genv.readFileB64 q = .ok b) :
    kieImageField genv none pi = .ok (some ("data:image/jpeg;base64," ++ b)) ∧
      defapiVeoImageField genv none pi =
        .ok (some ("data:image/jpeg;base64," ++ b)) ∧
      defapiSoraInputReference genv none pi =
        .ok (some ("data:" ++ mimeFor q ++ ";base64," ++ b)) := by
  refine ⟨?_, ?_, ?_⟩
  · unfold kieImageField
    rw [show truthyExisting genv.pathExists none = none from rfl, hq]
    simp [bind, Except.bind, hb, pure, Except.pure]
  · unfold defapiVeoImageField
    rw [show truthyExisting genv.pathExists none = none from rfl, hq]
    simp [bind, Except.bind, hb, pure, Except.pure]
  · unfold defapiSoraInputReference
    rw [show truthyExisting genv.pathExists none = none from rfl, hq]
    simp [bind, Except.bind, hb, pure, Except.pure]

/-- Claim C5: per-variant seeding discipline.  The generate call of clip 0
carries no start frame (so its payload seed is the product reference image
whenever one exists, per `imageFields_product`); the call of clip `k+1`
carries exactly the frame extracted from clip `k`'s output when clip `k`
succeeded and extraction succeeded with a non-empty path, and no start
frame otherwise; every call passes the product image through; with a start
frame present the call routes to the I2V endpoint seeded by it; and no
payload is ever image-free while an existing product image was supplied.
The calls trace always has one entry per prompt, so a frame-extraction
failure never aborts the variant. -/
def C5Holds (env : PipeEnv) (pa : PipeArgs) (v : Nat) : Prop :=
  ((process_video_pipeline env pa).1[v]? = some (variantRecordOf env pa v)) ∧
  (variantOut env pa v).calls.length = pa.prompts.length ∧
  (∀ c, (variantOut env pa v).calls[0]? = some c →
    c.args.start_frame_path = none) ∧
  (∀ (i : Nat) (c : CallRecord), (variantOut env pa v).calls[i]? = some c →
    c.args.product_image_path = pa.product_image_path ∧ c.position = i) ∧
  (∀ i c1 c2, (variantOut env pa v).calls[i]? = some c1 →
    (variantOut env pa v).calls[i + 1]? = some c2 →
    c2.args.start_frame_path =
      clipStartFrame (nextChainFrame env v i c1.result)
        { clip_index := c2.clip_index }) ∧
  (∀ (i : Nat) (c : CallRecord) (p : String),
    (variantOut env pa v).calls[i]? = some c →
    truthyExisting (env.genEnv v i).pathExists c.args.start_frame_path = some p →
    generate (env.genEnv v i) c.args =
      (match generate_kie_ai_i2v (env.genEnv v i) c.args.prompt p
          c.args.duration with
       | .ok r => r
       | .error e => ⟨false, none, none, some e, c.args.provider.value, c.args.model.value, 0⟩)) ∧
  (∀ (i : Nat) (c : CallRecord) (q : String),
    (variantOut env pa v).calls[i]? = some c →
    truthyExisting (env.genEnv v i).pathExists c.args.product_image_path =
      some q →
    (∀ r, ∃ b, (env.genEnv v i).readFileB64 r = .ok b) →
    kieImageField (env.genEnv v i) c.args.start_frame_path
      c.args.product_image_path ≠ .ok none ∧
    defapiVeoImageField (env.genEnv v i) c.args.start_frame_path
      c.args.product_image_path ≠ .ok none ∧
    defapiSoraInputReference (env.genEnv v i) c.args.start_frame_path
      c.args.product_image_path ≠ .ok none)

/-- C5 (confirmed): the seeding discipline of the orchestrator and the
generator payloads, as described in the claim. -/
theorem clip_seeding_discipline (env : PipeEnv) (pa : PipeArgs) (v : Nat)
    (hv : v < pa.num_variants) : C5Holds env pa v := by
  refine ⟨?_, ?_, ?_, ?_, ?_, ?_, ?_⟩
  · have := runVariants_variants_get env pa pa.num_variants 0 0 v hv
    simpa [process_video_pipeline] using this
  · exact runClips_calls_length env pa v pa.prompts 0 0 none
  · intro c hc
    rcases hps : pa.prompts with _ | ⟨cp0, rest⟩
    · rw [variantOut, hps] at hc
      simp [runClips] at hc
    · obtain ⟨ch, hch, hsf, _⟩ :=
        runClips_calls_head env pa v cp0 rest 0 0 none
      rw [variantOut, hps, hch, Option.some_inj] at hc
      subst hc
      rw [hsf]
      simp [clipStartFrame, strTruthy]
  · intro i c hc
    rcases hcp : pa.prompts[i]? with _ | cp
    · exfalso
      have hlen := runClips_calls_length env pa v pa.prompts 0 0 none
      rw [variantOut] at hc
      have hi : i < pa.prompts.length := by
        by_contra hge
        rw [List.getElem?_eq_none (by rw [hlen]; omega)] at hc
        cases hc
      have hge := List.getElem?_eq_none_iff.mp hcp
      omega
    · obtain ⟨c2, hc2, _, hpos, _, hprod, _⟩ :=
        runClips_calls_get env pa v pa.prompts 0 0 none i cp hcp
      rw [variantOut, hc2, Option.some_inj] at hc
      subst hc
      exact ⟨hprod, by omega⟩
  · intro i c1 c2 h1 h2
    have := runClips_chain env pa v pa.prompts 0 0 none i c1 c2 h1 h2
    rwa [Nat.zero_add] at this
  · intro i c p hc hp
    simp only [generate, hp]
  · intro i c q hc hq hread
    exact imageFields_not_none (env.genEnv v i) c.args.start_frame_path
      c.args.product_image_path q hq hread

/-- Witness for C5 at a concrete input. -/
theorem clip_seeding_discipline_witness : C5Holds pipeEnvTrivial pipeArgsSimple 0 :=
  clip_seeding_discipline pipeEnvTrivial pipeArgsSimple 0 (by decide)

/-! ## Claim C6 -/

theorem runVariants_updates (env : PipeEnv) (pa : PipeArgs) :
    ∀ (n idx completed : Nat),
      (runVariants env pa idx completed n).updates =
        (List.range (n * pa.prompts.length)).map
          (fun i => genUpd (pa.num_variants * pa.prompts.length)
            (completed + i)) := by
  intro n
  induction n with
  | zero => intro idx c; simp [runVariants]
  | succ m ih =>
    intro idx c
    simp only [runVariants]
    rw [runClips_updates, ih (idx + 1), runClips_completed]
    rw [show (m + 1) * pa.prompts.length =
      pa.prompts.length + m * pa.prompts.length by ring]
    rw [List.range_add, List.map_append, List.map_map]
    refine congrArg _ ?_
    refine List.map_congr_left (fun i _ => ?_)
    simp only [Function.comp]
    refine congrArg _ (by omega)

theorem pipeline_updates_decomp (env : PipeEnv) (pa : PipeArgs) :
    (process_video_pipeline env pa).2.1 =
      preGenerationUpdates ++
        (List.range (pa.num_variants * pa.prompts.length)).map
          (fun i => genUpd (pa.num_variants * pa.prompts.length) i) ++
        [⟨"completed", 100⟩] := by
  simp only [process_video_pipeline]
  rw [runVariants_updates]
  refine congrArg₂ _ (congrArg _ ?_) rfl
  exact List.map_congr_left (fun i _ => congrArg _ (by omega))

theorem pre_updates_le_60 : ∀ u ∈ preGenerationUpdates, u.progress ≤ 60 := by
  intro u hu
  simp only [preGenerationUpdates, List.mem_cons, List.not_mem_nil,
    or_false] at hu
  rcases hu with rfl | rfl | rfl | rfl | rfl | rfl | rfl | rfl | rfl <;> norm_num

theorem genUpd_ge_60 (T j : Nat) : 60 ≤ (genUpd T j).progress := by
  simp only [genUpd]
  have : (0:ℚ) ≤ (j : ℚ) / (T : ℚ) * 30 := by positivity
  linarith

theorem genUpd_le_100 (T j : Nat) (hj : j < T) : (genUpd T j).progress ≤ 100 := by
  simp only [genUpd]
  have hT : (0:ℚ) < (T : ℚ) := by exact_mod_cast Nat.lt_of_le_of_lt (Nat.zero_le j) hj
  have h1 : (j : ℚ) / (T : ℚ) ≤ 1 := by
    rw [div_le_one hT]
    exact_mod_cast hj.le
  nlinarith

theorem genUpd_mono (T i j : Nat) (hij : i ≤ j) :
    (genUpd T i).progress ≤ (genUpd T j).progress := by
  simp only [genUpd]
  rcases eq_or_lt_of_le (Nat.cast_nonneg (α := ℚ) T) with hT | hT
  · rw [← hT]
    simp
  · have : (i : ℚ) / (T : ℚ) ≤ (j : ℚ) / (T : ℚ) := by
      gcongr
    linarith

/-- Claim C6: across every run with any mix of per-clip outcomes, the
progress values written by successive `update_job_status` calls are
monotonically non-decreasing, the generation-phase values are exactly
`60 + completed/total * 30` for `completed = 0, 1, ...`, and the run ends
at progress 100 with status `completed`. -/
def C6Holds (env : PipeEnv) (pa : PipeArgs) : Prop :=
  List.Chain' (fun a b => a ≤ b)
    (((process_video_pipeline env pa).2.1).map (fun u => u.progress)) ∧
  (((process_video_pipeline env pa).2.1).filter
      (fun u => u.status == "generating")).map (fun u => u.progress) =
    (List.range (pa.num_variants * pa.prompts.length)).map
      (fun (j : Nat) => 60 + (j : ℚ) /
        ((pa.num_variants * pa.prompts.length : Nat) : ℚ) * 30) ∧
  ((process_video_pipeline env pa).2.1).getLast? = some ⟨"completed", 100⟩

/-- C6 (confirmed): `JobState.progress` is non-decreasing across the whole
run for every mix of clip successes and failures, follows the
`60 + completed/total*30` interpolation during generation, and ends at
100. -/
theorem progress_monotone (env : PipeEnv) (pa : PipeArgs) : C6Holds env pa := by
  have hdec := pipeline_updates_decomp env pa
  refine ⟨?_, ?_, ?_⟩
  · rw [hdec]
    have hpw : (preGenerationUpdates ++
        (List.range (pa.num_variants * pa.prompts.length)).map
          (fun i => genUpd (pa.num_variants * pa.prompts.length) i) ++
        [(⟨"completed", 100⟩ : StatusUpdate)]).Pairwise
          (fun a b => a.progress ≤ b.progress) := by
      rw [List.pairwise_append, List.pairwise_append]
      refine ⟨⟨?_, ?_, ?_⟩, by simp, ?_⟩
      · simp only [preGenerationUpdates, List.pairwise_cons,
          List.mem_cons, List.not_mem_nil, or_false, List.Pairwise.nil]
        refine ⟨?_, ?_, ?_, ?_, ?_, ?_, ?_, ?_, by simp⟩ <;>
          (intro u hu;
           rcases hu with rfl | rfl | rfl | rfl | rfl | rfl | rfl | rfl <;>
             norm_num) <;> try (rcases hu with rfl | rfl <;> norm_num)
      · rw [List.pairwise_map]
        refine List.Pairwise.imp ?_ (List.pairwise_lt_range _)
        intro i j hij
        exact genUpd_mono _ i j hij.le
      · intro a ha b hb
        simp only [List.mem_map, List.mem_range] at hb
        obtain ⟨j, _, rfl⟩ := hb
        exact le_trans (pre_updates_le_60 a ha) (genUpd_ge_60 _ j)
      · intro a ha b hb
        simp only [List.mem_singleton] at hb
        subst hb
        rcases List.mem_append.mp ha with ha | ha
        · exact le_trans (pre_updates_le_60 a ha) (by norm_num)
        · simp only [List.mem_map, List.mem_range] at ha
          obtain ⟨j, hj, rfl⟩ := ha
          exact le_trans (genUpd_le_100 _ j hj) (by norm_num)
    rw [List.chain'_map]
    exact List.Pairwise.chain' hpw
  · rw [hdec, List.filter_append, List.filter_append]
    rw [show preGenerationUpdates.filter
      (fun u => u.status == "generating") = [] from rfl]
    rw [show ([(⟨"completed", 100⟩ : StatusUpdate)]).filter
      (fun u => u.status == "generating") = [] from rfl]
    rw [List.filter_eq_self.mpr (by
      intro a ha
      simp only [List.mem_map, List.mem_range] at ha
      obtain ⟨j, _, rfl⟩ := ha
      rfl)]
    simp only [List.nil_append, List.append_nil, List.map_map]
    rfl
  · rw [hdec]
    exact List.getLast?_concat _

/-! ## Claim C10: `start_generation` (src/backend/api/routes.py) -/

/-- The session hash read back by `get_session_data`. -/
structure SessionData where
  status : String
  progress : ℚ
  current_step : String
  tiktok_url : String
  product_name : String
  product_image_path : Option String
  num_variants : Nat
  provider : String
  model : String
  strategy : String

/-- One enqueued `process_video_pipeline.delay(...)` call with its
keyword arguments. -/
structure PipelineTask where
  session_id : String
  tiktok_url : String
  product_name : String
  product_image_path : Option String
  num_variants : Nat
  provider : String
  model : String
  strategy : String

/-- An `HTTPException(status_code, detail)`. -/
structure HttpError where
  status_code : Nat
  detail : String

/-- The Redis session store: session id to stored hash, `none` when
`redis_client.exists` is false. -/
def SessionStore : Type := String → Option SessionData

/-- `start_generation` from routes.py: 404 when the session key is
missing; 400 "Session already processing" when the stored status is
downloading, analyzing or generating; otherwise enqueue exactly one
pipeline task and overwrite the session's status/progress/current_step
via `update_job_status(..., "pending", 0.0, "Job queued")`.  Returns the
resulting store, the list of enqueued tasks, and the raised error if
any. -/
def start_generation (store : SessionStore) (session_id : String) :
    SessionStore × List PipelineTask × Option HttpError :=
  match store session_id with
  | none => (store, [], some ⟨404, "Session not found"⟩)
  | some data =>
    if data.status ∈ ["downloading", "analyzing", "generating"] then
      (store, [], some ⟨400, "Session already processing"⟩)
    else
      (fun sid => if sid = session_id then
          some { data with status := "pending", progress := 0,
                           current_step := "Job queued" }
        else store sid,
       [⟨session_id, data.tiktok_url, data.product_name,
         data.product_image_path, data.num_variants, data.provider,
         data.model, data.strategy⟩],
       none)

/-- Claim C10: unknown session id gives HTTP 404 with no task and no
store change; a session in status downloading/analyzing/generating gives
HTTP 400 "Session already processing" with no task and no store change;
otherwise no error is raised, exactly one pipeline task carrying the
session's stored fields is enqueued, and the session record is set to
status pending with progress 0 while every other session is untouched. -/
def C10Holds (store : SessionStore) (sid : String) : Prop :=
  (store sid = none →
    start_generation store sid = (store, [], some ⟨404, "Session not found"⟩)) ∧
  (∀ d : SessionData, store sid = some d →
    d.status ∈ ["downloading", "analyzing", "generating"] →
    start_generation store sid =
      (store, [], some ⟨400, "Session already processing"⟩)) ∧
  (∀ d : SessionData, store sid = some d →
    d.status ∉ ["downloading", "analyzing", "generating"] →
    (start_generation store sid).2.2 = none ∧
    (start_generation store sid).2.1 =
      [⟨sid, d.tiktok_url, d.product_name, d.product_image_path,
        d.num_variants, d.provider, d.model, d.strategy⟩] ∧
    (start_generation store sid).1 sid =
      some { d with status := "pending", progress := 0,
                    current_step := "Job queued" } ∧
    ∀ s : String, s ≠ sid → (start_generation store sid).1 s = store s)

/-- C10 (confirmed): `start_generation` returns 404 for a missing
session, 400 "Session already processing" without enqueueing when the
stored status is downloading, analyzing or generating, and otherwise
enqueues exactly one pipeline task and resets the session to status
pending with progress 0, leaving other sessions unchanged. -/
theorem api_generation_gate (store : SessionStore) (sid : String) :
    C10Holds store sid := by
  refine ⟨?_, ?_, ?_⟩
  · intro h
    simp only [start_generation, h]
  · intro d hd hmem
    simp only [start_generation, hd]
    rw [if_pos hmem]
  · intro d hd hmem
    simp only [start_generation, hd]
    rw [if_neg hmem]
    refine ⟨rfl, rfl, by simp, fun s hs => by simp [hs]⟩

/-- A concrete store with one idle and one busy session. -/
def sessionIdle : SessionData :=
  { status := "completed", progress := 100, current_step := "done",
    tiktok_url := "https://tiktok.test/v/1", product_name := "gadget",
    product_image_path := none, num_variants := 2, provider := "kie_ai",
    model := "sora-2", strategy := "auto" }

def sessionBusy : SessionData :=
  { sessionIdle with status := "generating" }

def storeC10 : SessionStore := fun sid =>
  if sid = "busy" then some sessionBusy
  else if sid = "idle" then some sessionIdle
  else none

theorem api_generation_gate_witness :
    start_generation storeC10 "missing" =
      (storeC10, [], some ⟨404, "Session not found"⟩) ∧
    start_generation storeC10 "busy" =
      (storeC10, [], some ⟨400, "Session already processing"⟩) ∧
    (start_generation storeC10 "idle").2.2 = none ∧
    (start_generation storeC10 "idle").2.1 =
      [⟨"idle", sessionIdle.tiktok_url, sessionIdle.product_name,
        sessionIdle.product_image_path, sessionIdle.num_variants,
        sessionIdle.provider, sessionIdle.model, sessionIdle.strategy⟩] ∧
    (start_generation storeC10 "idle").1 "idle" =
      some { sessionIdle with status := "pending", progress := 0,
                              current_step := "Job queued" } ∧
    (start_generation storeC10 "idle").1 "busy" = some sessionBusy := by
  obtain ⟨h404, h400, hok⟩ := api_generation_gate storeC10 "missing"
  obtain ⟨_, h400b, _⟩ := api_generation_gate storeC10 "busy"
  obtain ⟨_, _, hokc⟩ := api_generation_gate storeC10 "idle"
  have hmiss : storeC10 "missing" = none := rfl
  have hbusy : storeC10 "busy" = some sessionBusy := rfl
  have hidle : storeC10 "idle" = some sessionIdle := rfl
  obtain ⟨e1, e2, e3, e4⟩ :=
    hokc sessionIdle hidle (by
      show sessionIdle.status ∉ _
      rw [show sessionIdle.status = "completed" from rfl]
      decide)
  refine ⟨h404 hmiss, ?_, e1, e2, e3, ?_⟩
  · refine h400b sessionBusy hbusy ?_
    rw [show sessionBusy.status = "generating" from rfl]
    decide
  · rw [e4 "busy" (by decide), hbusy]

end Video2Video
